import Mathlib

/-!
Verification of the scheduling core of COVI-AgentSim (aubreymcleod fork).

This file shallowly embeds the data structures and functions of
`src/covid19sim/interactivity/interactive_planner.py` and
`src/covid19sim/utils/mobility_planner.py` that the specification's claims
are about, and proves or refutes each claim.

Modelling conventions:
* Python `datetime.datetime` timestamps and second durations are modelled as
  `Int` (absolute seconds); the values occurring in the simulator are exact
  integers well inside float precision, and all operations used by the
  embedded code are order comparisons, addition and subtraction.
* Python exceptions are modelled by the `PyError` type, one constructor per
  exception class raised by the embedded module; `assert` failures map to
  `assertionError`.  A function that can raise returns `Except PyError _`
  or `Option _` (`none` = some exception escapes).
* `bisect.bisect_left` / `bisect.insort_left` (Python standard library) are
  modelled by their documented behaviour on sorted lists: the insertion
  point is the length of the maximal prefix of elements strictly smaller
  than the key in lexicographic tuple order.
-/

/-- Exception classes raised by the embedded module.  `RangDictKeyException`
is the (single) exception class declared in `interactive_planner.py`
(`class RangDictKeyException(Exception)`); the message string is the
argument the source passes to the constructor. -/
inductive PyError where
  | rangDictKeyException (msg : String)
  | assertionError (msg : String)
  | keyError
  | indexError
  | nameError
  deriving Repr, DecidableEq

/-- Python tuple `<` on pairs (lexicographic). -/
def pairLtb (x k : Int × Int) : Bool := x.1 < k.1 || (x.1 == k.1 && x.2 < k.2)

/-- Python `bisect.bisect_left(LUT, key)` on a sorted list: the leftmost
insertion point, i.e. the number of leading elements `< key`. -/
def bisect_left (l : List (Int × Int)) (k : Int × Int) : Nat :=
  (l.takeWhile (fun x => pairLtb x k)).length

/-- Python `bisect.insort_left(LUT, key)`: insert `key` at `bisect_left`. -/
def insort_left (l : List (Int × Int)) (k : Int × Int) : List (Int × Int) :=
  l.take (bisect_left l k) ++ k :: l.drop (bisect_left l k)

/-- The `while Lower <= Upper` loop of `_binary_key_search`
(interactive_planner.py:1537-1553).  `fuel` bounds the number of
iterations; the measure `Upper + 1 - Lower` strictly decreases on every
iteration, so the fuel supplied by `_binary_key_search` is never exhausted
(this is part of what the search theorems prove).  The source's final
guard `LUT[i][0] <= key < LUT[i][1]` always holds when reached (its two
preceding guards failed), so the `some` branch models it directly.
Returning `none` models raising `RangDictKeyException("Key not found")`. -/
def _bks_loop (LUT : List (Int × Int)) (key : Int) : Nat → Int → Int → Option Nat
  | 0, _, _ => none
  | fuel + 1, Lower, Upper =>
    if Lower ≤ Upper then
      -- i = math.floor((Lower + Upper) / 2); Python floor division
      let i : Int := (Lower + Upper) / 2
      match LUT[i.toNat]? with
      | none => none        -- `if i == len(LUT): break` (falls through to raise)
      | some p =>
        if p.2 ≤ key then _bks_loop LUT key fuel (i + 1) Upper
        else if p.1 > key then _bks_loop LUT key fuel Lower (i - 1)
        else some i.toNat
    else none               -- loop exits, falls through to raise

/-- `_binary_key_search(LUT, key)` (interactive_planner.py:1537-1553):
`Lower = 0`, `Upper = len(LUT)`. -/
def _binary_key_search (LUT : List (Int × Int)) (key : Int) : Option Nat :=
  _bks_loop LUT key (LUT.length + 2) 0 LUT.length

/-- The Interval Store `RangeDict` (interactive_planner.py:1556-1643).
`_store` is the insertion-ordered Python dict, `_FLUT` the list of
`(start, end)` keys sorted by `insort_left`, `_BLUT` the list of
`(end, start)` pairs. -/
structure RangeDict (α : Type) where
  FLUT : List (Int × Int)
  BLUT : List (Int × Int)
  store : List ((Int × Int) × α)
  deriving Repr, DecidableEq

/-- `RangeDict()` with no initial entries. -/
def RangeDict.empty {α : Type} : RangeDict α := ⟨[], [], []⟩

/-- Lookup of key `k` in the Python dict `_store`. -/
def storeLookup {α : Type} (store : List ((Int × Int) × α)) (k : Int × Int) : Option α :=
  (store.find? (fun kv => kv.1 == k)).map Prod.snd

/-- Python dict assignment `_store[key] = value`: update in place if the key
exists, otherwise append (insertion order). -/
def storeInsert {α : Type} (store : List ((Int × Int) × α)) (k : Int × Int) (v : α) :
    List ((Int × Int) × α) :=
  if (store.find? (fun kv => kv.1 == k)).isSome then
    store.map (fun kv => if kv.1 == k then (k, v) else kv)
  else store ++ [(k, v)]

/-- Python `del _store[k]` once the key is known present: remove the first
(and only) binding of `k`. -/
def storeErase {α : Type} (store : List ((Int × Int) × α)) (k : Int × Int) :
    List ((Int × Int) × α) :=
  store.eraseP (fun kv => kv.1 == k)

/-- `RangeDict._check_range` (interactive_planner.py:1600-1629), including
the exact branch structure and messages of the source. -/
def RangeDict._check_range {α : Type} (rd : RangeDict α) (key : Int × Int) :
    Except PyError Unit :=
  if key.1 ≥ key.2 then
    .error (.rangDictKeyException "Range is not valid, should be (min, max); must be different")
  else
    let i_f := bisect_left rd.FLUT (key.1, key.1)
    let i_b := bisect_left rd.BLUT (key.2, key.2)
    if rd.FLUT = [] ∧ rd.BLUT = [] then .ok ()
    else if i_f = i_b then
      -- case: at the start
      if i_f = 0 then
        match rd.FLUT[0]? with
        | none => .error .indexError
        | some p =>
          if p.1 < key.2 then
            .error (.rangDictKeyException
              "Range is not unique (ending of new block impinges upon existing start of a block).")
          else .ok ()
      -- case: at the end
      else if i_f = rd.FLUT.length then
        match rd.FLUT.getLast? with
        | none => .error .indexError
        | some q =>
          if q.2 > key.1 then
            .error (.rangDictKeyException
              "Range is not unique (start of new block is within the previous block).")
          else .ok ()
      -- case: at the middle
      else
        match rd.FLUT[i_f - 1]?, rd.FLUT[i_f]? with
        | some q, some p =>
          if q.2 > key.1 ∨ p.1 < key.2 then
            .error (.rangDictKeyException "Range is not unique (block is contained in different block).")
          else .ok ()
        | _, _ => .error .indexError
    else .error (.rangDictKeyException "LUT index mismatch (should remain in sync).")

/-- `RangeDict.__setitem__` (interactive_planner.py:1577-1582). -/
def RangeDict.setitem {α : Type} (rd : RangeDict α) (key : Int × Int) (v : α) :
    Except PyError (RangeDict α) :=
  match rd._check_range key with
  | .error e => .error e
  | .ok _ =>
    .ok { FLUT := insort_left rd.FLUT (key.1, key.2)
          BLUT := insort_left rd.BLUT (key.2, key.1)
          store := storeInsert rd.store key v }

/-- `RangeDict.__getitem__` (interactive_planner.py:1567-1575) for a point
key (the `key is tuple` branch of the source compares the key against the
type object `tuple` and is therefore never taken). -/
def RangeDict.getitem {α : Type} (rd : RangeDict α) (key : Int) : Except PyError α :=
  match _binary_key_search rd.FLUT key with
  | none => .error (.rangDictKeyException "Key not found")
  | some i =>
    match rd.FLUT[i]? with
    | none => .error .indexError
    | some k =>
      match storeLookup rd.store k with
      | none => .error .keyError
      | some v => .ok v

/-- `RangeDict.__delitem__` (interactive_planner.py:1584-1592) for a point
key (as in `__getitem__`, the `key is tuple` test is never true). -/
def RangeDict.delitem {α : Type} (rd : RangeDict α) (key : Int) :
    Except PyError (RangeDict α) :=
  match _binary_key_search rd.FLUT key with
  | none => .error (.rangDictKeyException "Key not found")
  | some i =>
    match rd.FLUT[i]? with
    | none => .error .indexError
    | some k =>
      if (storeLookup rd.store k).isSome then
        .ok { FLUT := rd.FLUT.eraseIdx i
              BLUT := rd.BLUT.eraseIdx i
              store := storeErase rd.store k }
      else .error .keyError

/-- `RangeDict.get_range` (interactive_planner.py:1631-1643).  `stop` is the
optional `end` parameter.  A `RangDictKeyException` from the search for
`start` is caught and yields `[]`; one from the search for `stop` leaves
`end_index = None` (slice to the end of `_FLUT`).  The result is `none`
only if a `_store` lookup fails (a `KeyError`, which the source does not
catch). -/
def RangeDict.get_range {α : Type} (rd : RangeDict α) (start : Int) (stop : Option Int) :
    Option (List α) :=
  match _binary_key_search rd.FLUT start with
  | none => some []
  | some start_index =>
    let end_index : Option Nat :=
      match stop with
      | none => none
      | some e =>
        match _binary_key_search rd.FLUT e with
        | some j => some (j + 1)
        | none => none
    let keys := match end_index with
      | none => rd.FLUT.drop start_index
      | some j => (rd.FLUT.take j).drop start_index
    keys.mapM (fun k => storeLookup rd.store k)

/-- Well-formedness of a `RangeDict`: the stored intervals are pairwise
disjoint and sorted by start time, every interval is non-empty, `_BLUT`
mirrors `_FLUT` with swapped components, and the keys of `_store` are
exactly the members of `_FLUT`. -/
def RangeDict.WF {α : Type} (rd : RangeDict α) : Prop :=
  rd.FLUT.Pairwise (fun p q => p.2 ≤ q.1) ∧
  (∀ p ∈ rd.FLUT, p.1 < p.2) ∧
  rd.BLUT = rd.FLUT.map (fun p => (p.2, p.1)) ∧
  (rd.store.map Prod.fst).Perm rd.FLUT

instance {α : Type} (rd : RangeDict α) : Decidable rd.WF := by
  unfold RangeDict.WF; infer_instance

/-! ## Activities and the schedule-editing functions

From `covid19sim/utils/mobility_planner.py` (class `Activity`) and the
module-level scheduling functions; where `interactive_planner.py` carries a
newer copy of a function, the interactive copy is the one embedded and any
behavioural difference of the older copy is noted in the comment. -/

/-- A location, reduced to the fields the embedded functions read
(`opening_time` / `closing_time`, seconds since midnight). -/
structure Location where
  opening_time : Int
  closing_time : Int
  deriving Repr, DecidableEq

/-- `Activity` (mobility_planner.py:18-52).  `start_time` is an absolute
timestamp in seconds; `tentative_date` is the day index of the activity's
planned calendar date (`None` until set).  The fields not read by any
embedded function (`owner`, `rsvp`, `is_cancelled`,
`parent_activity_pointer`) are omitted. -/
structure Activity where
  start_time : Int
  duration : Int
  name : String
  location : Option Location
  tentative_date : Option Int := none
  prepend_name : String := ""
  append_name : String := ""
  deriving Repr, DecidableEq

/-- `Activity.end_time` (property): `start_time + duration`. -/
def Activity.end_time (a : Activity) : Int := a.start_time + a.duration

/-- `Activity.clone` (mobility_planner.py:46-52). -/
def Activity.clone (a : Activity) (prepend_name : String := "clone")
    (append_name : String := "clone") : Activity :=
  { start_time := a.start_time, duration := a.duration, name := a.name
    location := a.location, tentative_date := none
    prepend_name := prepend_name, append_name := append_name }

/-- `Activity.align` (mobility_planner.py:54-80): clone, then either move the
clone's start to `new_activity.end_time` keeping the original end
(`cut_left = true`) or keep the start and end at `new_activity.start_time`
(`cut_left = false`); `assert x.duration >= 0` is the `none` case. -/
def Activity.align (a new_activity : Activity) (cut_left : Bool)
    (prepend_name : String := "") (append_name : String := "") : Option Activity :=
  let x := a.clone prepend_name append_name
  let x :=
    if cut_left then
      { x with start_time := new_activity.end_time
               duration := x.duration - (new_activity.end_time - x.start_time) }
    else
      { x with duration := new_activity.start_time - x.start_time }
  if x.duration ≥ 0 then some x else none

/-- `SECONDS_PER_DAY` (constants). -/
def SECONDS_PER_DAY : Int := 86400

/-- `_get_seconds_since_midnight(date)` (utils): seconds since midnight of an
absolute timestamp; Python's result for a `datetime` is non-negative, which
`Int.emod` matches. -/
def _get_seconds_since_midnight (t : Int) : Int := t % SECONDS_PER_DAY

/-- `_get_datetime_for_seconds_since_midnight(seconds, date)`
(mobility_planner.py:1279-1290): midnight of `date` plus `seconds`.
`none` when the date is unset (the source would crash on `None.year`). -/
def _get_datetime_for_seconds_since_midnight (seconds_since_midnight : Int)
    (date : Option Int) : Option Int :=
  date.map (fun d => d * SECONDS_PER_DAY + seconds_since_midnight)

/-- `_make_hard_changes_to_activity_for_scheduling`
(interactive_planner.py:1092-1132, identical in mobility_planner.py:979-1018).
Returns the adjusted `(next_activity, last_activity)`; the inner
`_assert_positive_duration` check is the `none` case.  Note that in case
2a the source first moves `next_activity.start_time` to
`last_activity.end_time` and then recomputes `duration` from the *updated*
`end_time`, which leaves the duration unchanged. -/
def _make_hard_changes_to_activity_for_scheduling (next_activity last_activity : Activity)
    (keep_last_unchanged : Bool := false) : Option (Activity × Activity) :=
  let _assert_positive_duration := fun (n l : Activity) =>
    if n.duration ≥ 0 ∧ l.duration ≥ 0 then some (n, l) else none
  -- 1. if last activity can be safely cut short, do that and leave next_activity unchanged
  if ¬keep_last_unchanged ∧ last_activity.start_time ≤ next_activity.start_time then
    _assert_positive_duration next_activity
      { last_activity with duration := next_activity.start_time - last_activity.start_time }
  -- 2a. do next_activity late
  else if next_activity.end_time ≥ last_activity.end_time then
    let n1 := { next_activity with start_time := last_activity.end_time }
    _assert_positive_duration { n1 with duration := n1.end_time - n1.start_time } last_activity
  -- 2b. next_activity was supposed to end before the last activity, hence don't do next_activity
  else
    _assert_positive_duration
      { next_activity with start_time := last_activity.end_time, duration := 0 } last_activity

/-- The per-location-type opening/closing windows of the configuration, as
read by `_get_open_close_times`. -/
structure Conf where
  store_window : Int × Int
  misc_window : Int × Int
  park_window : Int × Int
  household_window : Int × Int
  deriving Repr, DecidableEq

/-- `_get_open_close_times(activity_name, conf, location)`
(interactive_planner.py:1163-1195): a concrete location's own window wins;
otherwise the window of the activity's location class; unknown names raise
`ValueError` (folded into `none` here since no embedded caller reaches it). -/
def _get_open_close_times (activity_name : String) (conf : Conf)
    (location : Option Location) : Option (Int × Int) :=
  match location with
  | some loc => some (loc.opening_time, loc.closing_time)
  | none =>
    if activity_name = "grocery" then some conf.store_window
    else if activity_name = "socialize" then some conf.misc_window
    else if activity_name = "exercise" then some conf.park_window
    else if activity_name = "sleep" ∨ activity_name = "idle" then some conf.household_window
    else none

/-- `_add_idle_activity` (interactive_planner.py:1134-1161): cover the gap
between `last_activity.end_time` and `next_activity.start_time` with an
`idle` activity at the household.  `none` models the two `assert`s. -/
def _add_idle_activity (household : Location) (schedule : List Activity)
    (next_activity last_activity : Activity) (awake_duration : Int) :
    Option (List Activity × Activity × Int) :=
  let duration := next_activity.start_time - last_activity.end_time
  if duration = 0 then some (schedule, last_activity, awake_duration)
  else if ¬(duration > 0) then none  -- assert duration > 0
  else
    let idle_activity : Activity :=
      { start_time := last_activity.end_time, duration := duration
        name := "idle", location := some household }
    let idle_time := idle_activity.end_time - next_activity.start_time
    if ¬(idle_time = 0) then none    -- assert idle_time == 0
    else some (schedule ++ [idle_activity], idle_activity, awake_duration + duration)

/-- `_add_to_the_schedule` (interactive_planner.py:998-1054, identical logic
in mobility_planner.py:888-943).  Returns the updated
`(schedule, last_activity, awake_duration)`; dropping the activity returns
the inputs unchanged; `none` models an uncaught exception (a failed
`assert`, or the start push when `tentative_date` is unset).  Note the
closing-time truncation uses `seconds_since_midnight` computed from the
*original* start time even when the start was pushed to `opening_time`. -/
def _add_to_the_schedule (household : Location) (conf : Conf) (schedule : List Activity)
    (activity last_activity : Activity) (awake_duration : Int) :
    Option (List Activity × Activity × Int) :=
  if ¬(activity.start_time ≥ last_activity.end_time) then none  -- assert: no conflict
  else
    match _get_open_close_times activity.name conf activity.location with
    | none => none
    | some (opening_time, closing_time) =>
      let seconds_since_midnight := _get_seconds_since_midnight activity.start_time
      if seconds_since_midnight > closing_time then some (schedule, last_activity, awake_duration)
      else
        let pushed : Option Activity :=
          if seconds_since_midnight < opening_time then
            match _get_datetime_for_seconds_since_midnight opening_time activity.tentative_date with
            | none => none
            | some t => some { activity with start_time := t }
          else some activity
        match pushed with
        | none => none
        | some activity =>
          if seconds_since_midnight < opening_time ∧
              activity.start_time < last_activity.end_time then
            some (schedule, last_activity, awake_duration)
          else
            let activity :=
              if closing_time ≠ SECONDS_PER_DAY then
                { activity with duration := min (closing_time - seconds_since_midnight) activity.duration }
              else activity
            if ¬(activity.duration ≥ 0) then none  -- assert
            else
              let idle_time := activity.start_time - last_activity.end_time
              if ¬(idle_time ≥ 0) then none        -- assert
              else
                let step : Option (List Activity × Activity × Int) :=
                  if idle_time > 0 then
                    _add_idle_activity household schedule activity last_activity awake_duration
                  else some (schedule, last_activity, awake_duration)
                match step with
                | none => none
                | some (schedule, last_activity, awake_duration) =>
                  if ¬(last_activity.end_time = activity.start_time) then none  -- assert
                  else some (schedule ++ [activity], activity, awake_duration + activity.duration)

/-- One iteration of the fitting loop of `_modify_schedule`
(interactive_planner.py:813-851).  `acc` is `partial_schedule` so far and
`added` records whether `new_activity` is already in it (the source tests
`new_activity not in partial_schedule`, which is object identity here:
the only object equal to `new_activity` is itself).  `none` models the
`assert` inside `Activity.align`. -/
def _fit_step (new_activity a : Activity) (acc : List Activity) (added : Bool) :
    Option (List Activity × Bool) :=
  -- if activity.start_time <= new_activity.start_time:
  if a.start_time ≤ new_activity.start_time ∧ a.end_time ≤ new_activity.start_time then
    some (acc ++ [a], added)
  else
    -- cut_right / cut_left as left set by the first `if`
    let cut_right := a.start_time ≤ new_activity.start_time
    let cut_left := a.start_time ≤ new_activity.start_time ∧ a.end_time > new_activity.end_time
    let tail := fun (cut_right cut_left : Bool) =>
      let step1 : Option (List Activity) :=
        if cut_right then
          match a.align new_activity false "modified-cut-right" with
          | none => none
          | some frag => some (acc ++ [frag])
        else some acc
      match step1 with
      | none => none
      | some acc =>
        let acc := if ¬added then acc ++ [new_activity] else acc
        if cut_left then
          match a.align new_activity true "modified-cut-left" with
          | none => none
          | some frag => some (acc ++ [frag], true)
        else some (acc, true)
    -- if activity.start_time >= new_activity.start_time:
    if a.start_time ≥ new_activity.start_time then
      if a.end_time ≤ new_activity.end_time then
        some (if added then acc else acc ++ [new_activity], true)
      else if new_activity.end_time ≤ a.start_time then
        some (acc ++ [a], added)
      else
        tail cut_right true
    else
      tail cut_right cut_left

/-- The `for activity in other_activities` loop of `_modify_schedule`. -/
def _fit_loop (new_activity : Activity) :
    List Activity → List Activity → Bool → Option (List Activity × Bool)
  | [], acc, added => some (acc, added)
  | a :: rest, acc, added =>
    match _fit_step new_activity a acc added with
    | none => none
    | some (acc', added') => _fit_loop new_activity rest acc' added'

/-- The `for a1, a2 in zip(full_schedule, full_schedule[1:])` assertion pair
of `_modify_schedule`: adjacent activities align and all but the last have
non-negative duration. -/
def _aligned_check : List Activity → Bool
  | [] => true
  | [_] => true
  | a1 :: a2 :: rest =>
    (a1.end_time == a2.start_time && decide (a1.duration ≥ 0)) && _aligned_check (a2 :: rest)

/-- The `valid` flag computed by the gate section of `_modify_schedule`
(interactive_planner.py:786-803, identically mobility_planner.py:705-722):
cleared when the new activity ends at or before the boundary, starts
before the boundary, or lies inside the first `work` entry of
`new_schedule`. -/
def _modify_schedule_valid (last_activity new_activity : Activity)
    (new_schedule : List Activity) : Bool :=
  let valid := true
  -- if new_activity completely overlaps with last_activity, do not accept
  let valid := if new_activity.end_time ≤ last_activity.end_time then false else valid
  -- if new_activity starts before the last_activity, do not accept
  let valid := if new_activity.start_time < last_activity.end_time then false else valid
  -- if new_activity coincides with work in new_schedule, do not accept
  match new_schedule.findIdx? (fun x => x.name == "work") with
  | none => valid
  | some wi =>
    match new_schedule[wi]? with
    | none => valid
    | some w =>
      if w.start_time ≤ new_activity.start_time ∧
          new_activity.end_time < w.end_time then false else valid

/-- The final assert block of `_modify_schedule`
(interactive_planner.py:856-865, identically mobility_planner.py:773-781):
`full_schedule[0]` must start at `remaining_schedule[-1].end_time`, the
last entry must be `sleep`, and the `zip` loop checks contiguity and
non-negative durations; only then is `(full_schedule, True)` returned. -/
def _modify_schedule_checks (last_activity : Activity) (full_schedule : List Activity) :
    Option (List Activity × Bool) :=
  match full_schedule.head? with
  | none => none                -- full_schedule[0] raises IndexError
  | some h =>
    if ¬(last_activity.end_time = h.start_time) then none  -- assert aligned
    else
      match full_schedule.getLast? with
      | none => none
      | some lst =>
        if ¬(lst.name = "sleep") then none  -- assert sleep last
        else if _aligned_check full_schedule then some (full_schedule, true)
        else none

/-- `_modify_schedule` (interactive_planner.py:769-865).  Returns the new
schedule and the `valid` flag; `none` models an uncaught `AssertionError`
or `IndexError`.  The older copy in mobility_planner.py:687-781 is embedded
separately below. -/
def _modify_schedule (remaining_schedule : List Activity) (new_activity : Activity)
    (new_schedule : List Activity) : Option (List Activity × Bool) :=
  match remaining_schedule.getLast? with
  | none => none                      -- assert len(remaining_schedule) > 0
  | some last_activity =>
    match new_schedule.head? with
    | none => none                    -- new_schedule[0] raises IndexError
    | some ns0 =>
      if ¬(last_activity.end_time = ns0.start_time) then none  -- assert aligned
      else
        let work_idx? := new_schedule.findIdx? (fun x => x.name == "work")
        if _modify_schedule_valid last_activity new_activity new_schedule = false then
          some ([], false)
        else
          let other_activities :=
            match work_idx? with
            | none => new_schedule        -- work_activity_idx = -1: every index qualifies
            | some wi => new_schedule.drop wi
          match _fit_loop new_activity other_activities [] false with
          | none => none
          | some (fitted, _) =>
            let full_head :=
              match work_idx? with
              | none => []
              | some wi => (new_schedule.take wi).filter (fun x => decide (x.duration > 0))
            let full_schedule :=
              full_head ++ fitted.filter (fun x => decide (x.duration > 0) || x.name == "sleep")
            _modify_schedule_checks last_activity full_schedule

/-- The older `_modify_schedule` copy (mobility_planner.py:687-781): same
gates and fitting loop, plus an `assert remaining_schedule[-1].name ==
"sleep"`, and no zero-duration filtering when reassembling the result. -/
def MobilityPlanner._modify_schedule (remaining_schedule : List Activity)
    (new_activity : Activity) (new_schedule : List Activity) :
    Option (List Activity × Bool) :=
  match remaining_schedule.getLast? with
  | none => none
  | some last_activity =>
    if ¬(last_activity.name = "sleep") then none  -- assert sleep last in remaining
    else
      match new_schedule.head? with
      | none => none
      | some ns0 =>
        if ¬(last_activity.end_time = ns0.start_time) then none
        else
          let work_idx? := new_schedule.findIdx? (fun x => x.name == "work")
          if _modify_schedule_valid last_activity new_activity new_schedule = false then
            some ([], false)
          else
            let other_activities :=
              match work_idx? with
              | none => new_schedule
              | some wi => new_schedule.drop wi
            match _fit_loop new_activity other_activities [] false with
            | none => none
            | some (fitted, _) =>
              let full_head :=
                match work_idx? with
                | none => []
                | some wi => new_schedule.take wi
              let full_schedule := full_head ++ fitted
              _modify_schedule_checks last_activity full_schedule

/-! ## Planner state, invitation protocol, `get_schedule` -/

/-- The per-agent planner state, restricted to the fields read or written by
the embedded methods.  The three invitation ledgers are Python sets of
dates (day indices); `is_quarantining` abbreviates
`human.intervened_behavior.is_quarantining()`. -/
structure PlannerState where
  current_activity : Activity
  schedule_for_day : List Activity
  full_schedule : List (List Activity)
  invitation_sent : List Int
  invitation_received : List Int
  invitation_accepted : List Int
  human_to_rest_at_home : Bool
  hospitalization_timestamp : Option Int
  critical_condition_timestamp : Option Int
  death_timestamp : Option Int
  follows_adult_schedule : Bool
  is_quarantining : Bool
  backing_schedule : RangeDict Activity
  schedule_prepared : List Int
  schedule_day : Int
  env_today : Int
  deriving Repr, DecidableEq

/-- Python `set.add`. -/
def dateAdd (l : List Int) (d : Int) : List Int := if d ∈ l then l else d :: l

/-- `_can_accept_invite` as defined in interactive_planner.py:1410-1443. -/
def InteractivePlanner._can_accept_invite (today : Int) (mp : PlannerState) : Bool :=
  -- health related checks
  if mp.human_to_rest_at_home ∨ mp.hospitalization_timestamp.isSome ∨
      mp.critical_condition_timestamp.isSome ∨ mp.death_timestamp.isSome then false
  -- behavior related checks
  else if mp.follows_adult_schedule ∨ today ∈ mp.invitation_accepted ∨
      today ∈ mp.invitation_sent ∨ today ∈ mp.invitation_received then false
  -- intervention related checks
  else if mp.is_quarantining then false
  else true

/-- `_can_accept_invite` as defined in mobility_planner.py:1334-1356.  Note
the health check tests `hospitalization_timestamp is None` and
`death_timestamp is None` (not `is not None`). -/
def MobilityPlanner._can_accept_invite (today : Int) (mp : PlannerState) : Bool :=
  let accept := true
  -- health related checks
  let accept :=
    if mp.human_to_rest_at_home ∨ mp.hospitalization_timestamp.isNone ∨
        mp.death_timestamp.isNone then false else accept
  -- behavior related checks
  let accept :=
    if mp.follows_adult_schedule ∨ today ∈ mp.invitation_accepted ∨
        today ∈ mp.invitation_sent ∨ today ∈ mp.invitation_received then false else accept
  accept

/-- `InteractivePlanner._update_backing_schedule`
(interactive_planner.py:201-215): wipe the covered slots from the backing
`RangeDict` and insert the replacement activities.  `none` models an
uncaught exception (empty input, or a `RangeDict` error). -/
def _update_backing_schedule (backing : RangeDict Activity) (activities : List Activity) :
    Option (RangeDict Activity) :=
  match activities.head?, activities.getLast? with
  | some a0, some alast =>
    match backing.get_range a0.start_time (some (alast.end_time - 1)) with
    | none => none
    | some time_range =>
      match time_range.foldlM (fun rd (a : Activity) => (rd.delitem a.start_time).toOption) backing with
      | none => none
      | some rd1 =>
        activities.foldlM (fun rd (a : Activity) => (rd.setitem (a.start_time, a.end_time) a).toOption) rd1
  | _, _ => none

/-- `InteractivePlanner.receive` (interactive_planner.py:287-363).
`rng_rejects` is the outcome of `self.rng.random() < 1 - P_INVITATION_ACCEPTANCE`.
The result pairs the returned boolean with the updated planner state;
`none` models an uncaught exception.  (`set_location_tracker` only writes
the omitted `parent_activity_pointer` field.) -/
def InteractivePlanner.receive (s : PlannerState) (activity : Activity) (rng_rejects : Bool) :
    Option (Bool × PlannerState) :=
  if ¬(activity.name = "socialize") then none  -- assert
  else
    let today := s.env_today
    let current_schedule := s.current_activity :: s.schedule_for_day
    match current_schedule.getLast? with
    | none => none
    | some csLast =>
      if ¬(InteractivePlanner._can_accept_invite today s)
          ∨ (activity.start_time < csLast.end_time ∧ activity.end_time ≥ csLast.end_time)
          ∨ (activity.start_time < s.current_activity.end_time)
          ∨ (s.current_activity.name = "sleep" ∧ activity.end_time ≤ csLast.end_time) then
        some (false, s)
      else
        let s := { s with invitation_received := dateAdd s.invitation_received today }
        if rng_rejects then some (false, s)
        else
          match s.full_schedule.head? with
          | none => none  -- next_schedule = list(self.full_schedule[0]) raises IndexError
          | some next0 =>
            let branch : Option (Bool × List Activity × List Activity) :=
              if activity.end_time ≤ csLast.end_time then
                if s.current_activity.name = "sleep" then none  -- double check: return False
                else some (false, [s.current_activity], s.schedule_for_day)
              else some (true, current_schedule, next0)
            match branch with
            | none => some (false, s)
            | some (update_next_schedule, remaining_schedule, new_schedule) =>
              let new_activity := activity.clone "invitation"
              match _modify_schedule remaining_schedule new_activity new_schedule with
              | none => none
              | some (new_sched, valid) =>
                if valid then
                  let s := { s with invitation_accepted := dateAdd s.invitation_accepted today }
                  let s :=
                    if update_next_schedule then
                      { s with full_schedule := new_sched :: s.full_schedule.tail }
                    else { s with schedule_for_day := new_sched }
                  match _update_backing_schedule s.backing_schedule new_sched with
                  | none => none
                  | some rd => some (true, { s with backing_schedule := rd })
                else some (false, s)

/-- `MobilityPlanner.receive` (mobility_planner.py:341-391).  `days_passed`
is `self.env.days_since_start()`.  On a successful fit with
`update_next_schedule` false the source executes `slf.schedule_for_day =
new_schedule`, an unbound name (`NameError`), modelled by `none`. -/
def MobilityPlanner.receive (s : PlannerState) (activity : Activity) (rng_rejects : Bool)
    (days_passed : Int) : Option (Bool × PlannerState) :=
  if ¬(activity.name = "socialize") then none  -- assert
  else
    let today := s.env_today
    if ¬(MobilityPlanner._can_accept_invite today s) then some (false, s)
    else
      let s := { s with invitation_received := dateAdd s.invitation_received today }
      if rng_rejects then some (false, s)
      else
        let branch : Option (Bool × List Activity × List Activity) :=
          if days_passed = s.schedule_day then
            some (false, [s.current_activity], s.schedule_for_day)
          else
            match s.full_schedule.head? with
            | none => none  -- self.full_schedule[0] raises IndexError
            | some n0 => some (true, s.current_activity :: s.schedule_for_day, n0)
        match branch with
        | none => none
        | some (update_next_schedule, remaining_schedule, new_schedule) =>
          let new_activity := activity.clone "invitation"
          match MobilityPlanner._modify_schedule remaining_schedule new_activity new_schedule with
          | none => none
          | some (new_sched, valid) =>
            if valid then
              let s := { s with invitation_accepted := dateAdd s.invitation_accepted today }
              if update_next_schedule then
                some (true, { s with full_schedule := new_sched :: s.full_schedule.tail })
              else none  -- `slf.schedule_for_day = new_schedule`: NameError
            else some (false, s)

/-- `get_schedule` (interactive_planner.py:175-199; the non-`for_kids` path
is identical in mobility_planner.py:282-302).  `prepare` stands for
`self._prepare_schedule()`; the theorems about `get_schedule` hold for
every `prepare`, so its body (adult presampling / kid patching) is a
parameter rather than a fixed embedding. -/
def InteractivePlanner.get_schedule
    (prepare : PlannerState → Option (List Activity × PlannerState))
    (s : PlannerState) (for_kids : Bool := false) :
    Option (List Activity × PlannerState) :=
  let today := s.env_today
  if for_kids then
    if s.follows_adult_schedule then none  -- assert
    else
      let next_schedule := match s.full_schedule.head? with | none => [] | some d => d
      some (s.current_activity :: (s.schedule_for_day ++ next_schedule), s)
  else
    if s.schedule_for_day.isEmpty then
      match prepare s with
      | none => none
      | some (sched, s') =>
        some (sched, { s' with schedule_for_day := sched
                               schedule_prepared := dateAdd s'.schedule_prepared today })
    else some (s.schedule_for_day, s)

/-! ## Claim theorems -/

/-- Convenience constructor for concrete activities in witnesses. -/
def mkActivity (s d : Int) (n : String) : Activity :=
  { start_time := s, duration := d, name := n, location := none }

/-- C10: `Activity.align` never mutates the activity it is called on — it
builds a fresh clone (same `name`/`location`, requested `prepend_name`) —
and with `cut_left = true` the clone starts at `new_activity.end_time` and
ends at the original's `end_time`, while with `cut_left = false` it keeps
the original `start_time` and ends at `new_activity.start_time`; in both
cases the clone's duration is asserted non-negative (the `some` result
carries `duration ≥ 0`, and `align` returns `some` exactly when the assert
passes, which the two hypotheses guarantee).  The embedding is pure, so
non-mutation of `a` is structural: the result is a separate record built
by `clone`. -/
theorem activity_align_clone_spec (a n : Activity) (p q : String) :
    (n.end_time ≤ a.end_time →
      ∃ x, a.align n true p q = some x ∧ x.start_time = n.end_time ∧
        x.end_time = a.end_time ∧ x.duration ≥ 0 ∧
        x.name = a.name ∧ x.location = a.location ∧ x.prepend_name = p) ∧
    (a.start_time ≤ n.start_time →
      ∃ x, a.align n false p q = some x ∧ x.start_time = a.start_time ∧
        x.end_time = n.start_time ∧ x.duration ≥ 0 ∧
        x.name = a.name ∧ x.location = a.location ∧ x.prepend_name = p) := by
  constructor
  · intro h
    simp only [Activity.end_time] at h
    have hd : a.duration - (n.end_time - a.start_time) ≥ 0 := by
      simp only [Activity.end_time]; omega
    refine ⟨{ start_time := n.end_time,
              duration := a.duration - (n.end_time - a.start_time),
              name := a.name, location := a.location, tentative_date := none,
              prepend_name := p, append_name := q }, ?_, rfl, ?_, hd, rfl, rfl, rfl⟩
    · unfold Activity.align Activity.clone
      simp only [ite_true]
      rw [if_pos hd]
    · simp only [Activity.end_time]
      omega
  · intro h
    have hd : n.start_time - a.start_time ≥ 0 := by omega
    refine ⟨{ start_time := a.start_time,
              duration := n.start_time - a.start_time,
              name := a.name, location := a.location, tentative_date := none,
              prepend_name := p, append_name := q }, ?_, rfl, ?_, hd, rfl, rfl, rfl⟩
    · unfold Activity.align Activity.clone
      simp only [Bool.false_eq_true, ite_false]
      rw [if_pos hd]
    · simp only [Activity.end_time]
      omega

/-- Witness for C10 at concrete activities. -/
theorem activity_align_clone_spec_witness :
    (∃ x, Activity.align (mkActivity 0 10 "idle") (mkActivity 2 4 "socialize") true "p" "q"
        = some x ∧ x.start_time = (mkActivity 2 4 "socialize").end_time ∧
        x.end_time = (mkActivity 0 10 "idle").end_time ∧ x.duration ≥ 0 ∧
        x.name = (mkActivity 0 10 "idle").name ∧
        x.location = (mkActivity 0 10 "idle").location ∧ x.prepend_name = "p") ∧
    (∃ x, Activity.align (mkActivity 0 10 "idle") (mkActivity 2 4 "socialize") false "p" "q"
        = some x ∧ x.start_time = (mkActivity 0 10 "idle").start_time ∧
        x.end_time = (mkActivity 2 4 "socialize").start_time ∧ x.duration ≥ 0 ∧
        x.name = (mkActivity 0 10 "idle").name ∧
        x.location = (mkActivity 0 10 "idle").location ∧ x.prepend_name = "p") :=
  ⟨(activity_align_clone_spec (mkActivity 0 10 "idle") (mkActivity 2 4 "socialize") "p" "q").1
      (by decide),
   (activity_align_clone_spec (mkActivity 0 10 "idle") (mkActivity 2 4 "socialize") "p" "q").2
      (by decide)⟩

/-- C6: for a conflicting pair (`next_activity.start_time <
last_activity.end_time`) with non-negative input durations,
`_make_hard_changes_to_activity_for_scheduling` succeeds (the internal
positivity assertion cannot fire), on return `last.end_time =
next.start_time`, both durations are non-negative, and at most one of the
two activities is shortened — never both. -/
theorem hard_changes_spec (next_activity last_activity : Activity) (keep : Bool)
    (hn : next_activity.duration ≥ 0) (hl : last_activity.duration ≥ 0)
    (hconf : next_activity.start_time < last_activity.end_time) :
    ∃ n' l', _make_hard_changes_to_activity_for_scheduling next_activity last_activity keep
        = some (n', l') ∧
      l'.end_time = n'.start_time ∧ n'.duration ≥ 0 ∧ l'.duration ≥ 0 ∧
      ¬(n'.duration < next_activity.duration ∧ l'.duration < last_activity.duration) := by
  have _hc := hconf
  unfold _make_hard_changes_to_activity_for_scheduling
  split_ifs with h1 h2 <;> dsimp only <;> split_ifs with hA <;>
    first
      | (refine ⟨_, _, rfl, ?_, ?_, ?_, ?_⟩ <;>
          simp only [Activity.end_time] at * <;> (try simp at *) <;> omega)
      | (exfalso; simp only [Activity.end_time] at *; (try simp at *); omega)

/-- Witness for C6 at a concrete conflicting pair. -/
theorem hard_changes_spec_witness :
    ∃ n' l',
      _make_hard_changes_to_activity_for_scheduling (mkActivity 5 10 "work")
          (mkActivity 0 10 "sleep") false = some (n', l') ∧
      l'.end_time = n'.start_time ∧ n'.duration ≥ 0 ∧ l'.duration ≥ 0 ∧
      ¬(n'.duration < (mkActivity 5 10 "work").duration ∧
        l'.duration < (mkActivity 0 10 "sleep").duration) :=
  hard_changes_spec (mkActivity 5 10 "work") (mkActivity 0 10 "sleep") false
    (by decide) (by decide) (by decide)

/-- C4: a range-fit attempt whose new activity starts before the boundary
(`new_activity.start_time < remaining_schedule[-1].end_time`) always
returns `(deque([]), False)`: the `valid` flag is cleared before any part
of the schedules is touched, so no mutation occurs (the embedding is pure
and the source only ever mutates the planner's schedules on `valid`). -/
theorem modify_schedule_boundary_reject (remaining_schedule new_schedule : List Activity)
    (new_activity lastA ns0 : Activity)
    (hlast : remaining_schedule.getLast? = some lastA)
    (hns : new_schedule.head? = some ns0)
    (halign : lastA.end_time = ns0.start_time)
    (hboundary : new_activity.start_time < lastA.end_time) :
    _modify_schedule remaining_schedule new_activity new_schedule = some ([], false) := by
  have hv : _modify_schedule_valid lastA new_activity new_schedule = false := by
    unfold _modify_schedule_valid
    cases hw : new_schedule.findIdx? (fun x => x.name == "work") with
    | none => simp [hboundary]
    | some wi =>
      cases hg : new_schedule[wi]? with
      | none => simp [hg, hboundary]
      | some w => simp [hg, hboundary, ite_self]
  unfold _modify_schedule
  rw [hlast, hns]
  dsimp only
  rw [if_neg (not_not_intro halign), if_pos hv]

/-- Witness for C4 at a concrete boundary violation. -/
theorem modify_schedule_boundary_reject_witness :
    _modify_schedule [mkActivity (-10) 10 "sleep"] (mkActivity (-5) 4 "socialize")
      [mkActivity 0 10 "idle", mkActivity 10 20 "sleep"] = some ([], false) :=
  modify_schedule_boundary_reject [mkActivity (-10) 10 "sleep"]
    [mkActivity 0 10 "idle", mkActivity 10 20 "sleep"] (mkActivity (-5) 4 "socialize")
    (mkActivity (-10) 10 "sleep") (mkActivity 0 10 "idle")
    (by decide) (by decide) (by decide) (by decide)

/-- C9: calling `get_schedule()` twice with no intervening
`get_next_activity()` returns the same sequence and performs no further
schedule preparation: the second call succeeds with the identical result
for *every* preparation function, so `_prepare_schedule` is not consulted.
The hypothesis `sched ≠ []` holds for every schedule the planner prepares
(each produced day ends with a `sleep` activity). -/
theorem get_schedule_idempotent
    (prepare prepare2 : PlannerState → Option (List Activity × PlannerState))
    (s s' : PlannerState) (sched : List Activity)
    (h : InteractivePlanner.get_schedule prepare s false = some (sched, s'))
    (hne : sched ≠ []) :
    InteractivePlanner.get_schedule prepare2 s' false = some (sched, s') := by
  unfold InteractivePlanner.get_schedule at h ⊢
  simp only [Bool.false_eq_true, if_false] at h ⊢
  by_cases he : s.schedule_for_day.isEmpty
  · rw [if_pos he] at h
    cases hp : prepare s with
    | none => rw [hp] at h; exact absurd h (by simp)
    | some res =>
      rw [hp] at h
      obtain ⟨sched0, s0⟩ := res
      simp only [Option.some.injEq, Prod.mk.injEq] at h
      obtain ⟨rfl, rfl⟩ := h
      rw [if_neg (by simp [List.isEmpty_iff]; exact hne)]
  · rw [if_neg he] at h
    simp only [Option.some.injEq, Prod.mk.injEq] at h
    obtain ⟨rfl, rfl⟩ := h
    rw [if_neg he]

/-- A concrete planner state for the C9 witness: empty
`schedule_for_day`, so the first `get_schedule` call prepares. -/
def wState : PlannerState :=
  { current_activity := mkActivity 0 10 "sleep", schedule_for_day := []
    full_schedule := [], invitation_sent := [], invitation_received := []
    invitation_accepted := [], human_to_rest_at_home := false
    hospitalization_timestamp := none, critical_condition_timestamp := none
    death_timestamp := none, follows_adult_schedule := false
    is_quarantining := false, backing_schedule := RangeDict.empty
    schedule_prepared := [], schedule_day := -1, env_today := 0 }

/-- Witness for C9: after a first call that prepared `[sleep]`, a second
call with a different preparation function returns the same result. -/
theorem get_schedule_idempotent_witness :
    InteractivePlanner.get_schedule (fun _ => none)
      { wState with schedule_for_day := [mkActivity 10 20 "sleep"], schedule_prepared := [0] }
      false
    = some ([mkActivity 10 20 "sleep"],
        { wState with schedule_for_day := [mkActivity 10 20 "sleep"], schedule_prepared := [0] }) :=
  get_schedule_idempotent (fun s => some ([mkActivity 10 20 "sleep"], s)) (fun _ => none)
    wState _ [mkActivity 10 20 "sleep"] (by decide) (by decide)

/-! Concrete inputs for claims about `_add_to_the_schedule` and `receive`. -/

def c5loc : Location := { opening_time := 36000, closing_time := 72000 }
def c5conf : Conf :=
  { store_window := (0, 86400), misc_window := (0, 86400)
    park_window := (0, 86400), household_window := (0, 86400) }
def c5household : Location := { opening_time := 0, closing_time := 86400 }
/-- A grocery activity whose candidate start (midnight of day 1) is before
the store's opening time. -/
def c5activity : Activity :=
  { start_time := 86400, duration := 50000, name := "grocery"
    location := some c5loc, tentative_date := some 1 }
def c5last : Activity := mkActivity 80000 6400 "sleep"

/-- C5 (failing part): `_add_to_the_schedule` truncates the duration with
`closing_time - seconds_since_midnight` where `seconds_since_midnight` was
computed from the *original* start time.  When the start has been pushed
forward to `opening_time`, the scheduled activity can end after the
location's closing time: here the store is open 10:00–20:00, the candidate
start is midnight (pushed to 10:00), the duration 50000 s survives
truncation (`min(72000 - 0, 50000)`), and the activity ends at
`seconds_since_midnight = 86000 > 72000`.  This contradicts the source's
own comment "end_in_seconds can not exceed closing time". -/
theorem add_to_schedule_closing_overrun :
    _add_to_the_schedule c5household c5conf [] c5activity c5last 0
      = some ([{ start_time := 86400, duration := 36000, name := "idle",
                 location := some c5household },
               { c5activity with start_time := 122400 }],
              { c5activity with start_time := 122400 }, 86000) ∧
    _get_seconds_since_midnight ({ c5activity with start_time := 122400 } : Activity).end_time
      > c5loc.closing_time := by decide

/-- A hospitalized receiver that has already died (both timestamps set),
otherwise unconstrained: the planner state used to exhibit the C3 bug. -/
def c3state : PlannerState :=
  { wState with hospitalization_timestamp := some 0, death_timestamp := some 0, env_today := 7 }

/-- C3 (failing part): `_can_accept_invite` in mobility_planner.py tests
`hospitalization_timestamp is None or death_timestamp is None` — inverted
relative to the fixed copy in interactive_planner.py — so a dead,
hospitalized receiver passes the health gate, and `MobilityPlanner.receive`
mutates the invitation ledger (`invitation["received"].add(today)`) instead
of returning `False` with no state change. -/
theorem mobility_receive_accepts_dead :
    c3state.death_timestamp.isSome ∧
    MobilityPlanner._can_accept_invite 7 c3state = true ∧
    MobilityPlanner.receive c3state (mkActivity 100 5000 "socialize") true 0
      = some (false, { c3state with invitation_received := [7] }) ∧
    { c3state with invitation_received := [7] } ≠ c3state := by decide

/-- The corrected copy (`interactive_planner.py`) does satisfy the claim:
whenever the receiver is resting at home, hospitalized, critical, dead,
supervised, or has already sent/received/accepted an invitation dated
today, `InteractivePlanner.receive` returns `False` and leaves the planner
state unchanged. -/
theorem interactive_receive_rejects (s : PlannerState) (activity : Activity) (rng_rejects : Bool)
    (hname : activity.name = "socialize")
    (hcond : s.human_to_rest_at_home ∨ s.hospitalization_timestamp.isSome ∨
      s.critical_condition_timestamp.isSome ∨ s.death_timestamp.isSome ∨
      s.follows_adult_schedule ∨ s.env_today ∈ s.invitation_sent ∨
      s.env_today ∈ s.invitation_received ∨ s.env_today ∈ s.invitation_accepted) :
    InteractivePlanner.receive s activity rng_rejects = some (false, s) := by
  have hcan : InteractivePlanner._can_accept_invite s.env_today s = false := by
    unfold InteractivePlanner._can_accept_invite
    split_ifs <;> simp_all
  unfold InteractivePlanner.receive
  rw [if_neg (by simp [hname])]
  cases hcs : (s.current_activity :: s.schedule_for_day).getLast? with
  | none => simp at hcs
  | some csLast =>
    dsimp only
    rw [hcs]
    dsimp only
    rw [if_pos (Or.inl (by simp [hcan]))]

/-- Witness for `interactive_receive_rejects` at a concrete hospitalized
receiver. -/
theorem interactive_receive_rejects_witness :
    InteractivePlanner.receive { wState with hospitalization_timestamp := some 3 }
      (mkActivity 100 5000 "socialize") false
      = some (false, { wState with hospitalization_timestamp := some 3 }) :=
  interactive_receive_rejects { wState with hospitalization_timestamp := some 3 }
    (mkActivity 100 5000 "socialize") false (by decide) (by decide)

/-- C2 (counterexample): the internal assertions of `_modify_schedule` CAN
fire on an input accepted as valid.  Here the gates pass
(`_modify_schedule_valid = true`: the invite `[5, 15)` does not lie inside
the work block `[10, 20)`, it merely overlaps its start), yet the fitter
inserts the new activity before the untouched entries preceding `work`,
and the contiguity assertion fails — the call raises (`none`) instead of
returning. -/
theorem modify_schedule_assert_fires :
    _modify_schedule [mkActivity (-10) 10 "sleep"] (mkActivity 5 10 "socialize")
      [mkActivity 0 10 "idle", mkActivity 10 10 "work", mkActivity 20 20 "sleep"]
      = none ∧
    _modify_schedule_valid (mkActivity (-10) 10 "sleep") (mkActivity 5 10 "socialize")
      [mkActivity 0 10 "idle", mkActivity 10 10 "work", mkActivity 20 20 "sleep"]
      = true := by decide

/-- `_aligned_check` is the `Chain'` contiguity/non-negativity property. -/
theorem aligned_check_iff (l : List Activity) :
    _aligned_check l = true ↔
      l.Chain' (fun a1 a2 => a1.end_time = a2.start_time ∧ a1.duration ≥ 0) := by
  induction l with
  | nil => simp [_aligned_check]
  | cons a rest ih =>
    cases rest with
    | nil => simp [_aligned_check]
    | cons b rest2 =>
      rw [_aligned_check, List.chain'_cons, ← ih]
      simp [Activity.end_time, and_assoc]

/-- Success extraction for the final assert block of `_modify_schedule`. -/
theorem checks_extract (lastA : Activity) (full fs : List Activity)
    (h : _modify_schedule_checks lastA full = some (fs, true)) :
    fs = full ∧
    (∃ h0, fs.head? = some h0 ∧ h0.start_time = lastA.end_time) ∧
    (∃ lst, fs.getLast? = some lst ∧ lst.name = "sleep") ∧
    fs.Chain' (fun a1 a2 => a1.end_time = a2.start_time ∧ a1.duration ≥ 0) := by
  unfold _modify_schedule_checks at h
  split at h
  · simp at h
  case _ h0 hhead =>
  split at h
  · simp at h
  case _ halign =>
  split at h
  · simp at h
  case _ lst hlst =>
  split at h
  · simp at h
  case _ hsleep =>
  split at h
  case _ hcheck =>
    simp only [Option.some.injEq, Prod.mk.injEq] at h
    obtain ⟨rfl, -⟩ := h
    refine ⟨rfl, ⟨h0, hhead, by omega⟩, ⟨lst, hlst, by simpa using hsleep⟩,
      (aligned_check_iff _).mp hcheck⟩
  · simp at h

/-- C2 (amended): whenever `_modify_schedule` *does* return with
`valid = True`, the returned schedule starts exactly at the end time of the
last activity of `remaining_schedule`, every adjacent pair is contiguous
with non-negative duration, and its last activity is `sleep` — the source
checks these exhaustively before returning success.  (The claim's further
assertion that these internal checks "never fire on an input accepted as
valid" is refuted by `modify_schedule_assert_fires`.) -/
theorem modify_schedule_valid_result (remaining_schedule new_schedule : List Activity)
    (new_activity : Activity) (fs : List Activity)
    (h : _modify_schedule remaining_schedule new_activity new_schedule = some (fs, true)) :
    (∃ lastA h0, remaining_schedule.getLast? = some lastA ∧ fs.head? = some h0 ∧
        h0.start_time = lastA.end_time) ∧
    (∃ lst, fs.getLast? = some lst ∧ lst.name = "sleep") ∧
    fs.Chain' (fun a1 a2 => a1.end_time = a2.start_time ∧ a1.duration ≥ 0) := by
  unfold _modify_schedule at h
  split at h
  · simp at h
  case _ lastA hlast =>
  split at h
  · simp at h
  case _ ns0 hns =>
  split at h
  · simp at h
  split at h
  · simp at h
  dsimp only at h
  cases hw : new_schedule.findIdx? (fun x => x.name == "work") with
  | none =>
    rw [hw] at h
    dsimp only at h
    split at h
    · simp at h
    obtain ⟨-, ⟨h0, hh0, hs⟩, h3, h4⟩ := checks_extract lastA _ fs h
    exact ⟨⟨lastA, h0, hlast, hh0, hs⟩, h3, h4⟩
  | some wi =>
    rw [hw] at h
    dsimp only at h
    split at h
    · simp at h
    obtain ⟨-, ⟨h0, hh0, hs⟩, h3, h4⟩ := checks_extract lastA _ fs h
    exact ⟨⟨lastA, h0, hlast, hh0, hs⟩, h3, h4⟩

/-- Witness for the amended C2 at a concrete accepted fit. -/
theorem modify_schedule_valid_result_witness :
    (∃ lastA h0,
        ([mkActivity (-10) 10 "sleep"] : List Activity).getLast? = some lastA ∧
        ([{ mkActivity 0 2 "idle" with prepend_name := "modified-cut-right" },
          mkActivity 2 4 "socialize",
          { mkActivity 6 4 "idle" with prepend_name := "modified-cut-left" },
          mkActivity 10 20 "sleep"] : List Activity).head? = some h0 ∧
        h0.start_time = lastA.end_time) ∧
    (∃ lst,
        ([{ mkActivity 0 2 "idle" with prepend_name := "modified-cut-right" },
          mkActivity 2 4 "socialize",
          { mkActivity 6 4 "idle" with prepend_name := "modified-cut-left" },
          mkActivity 10 20 "sleep"] : List Activity).getLast? = some lst ∧
        lst.name = "sleep") ∧
    ([{ mkActivity 0 2 "idle" with prepend_name := "modified-cut-right" },
      mkActivity 2 4 "socialize",
      { mkActivity 6 4 "idle" with prepend_name := "modified-cut-left" },
      mkActivity 10 20 "sleep"] : List Activity).Chain'
        (fun a1 a2 => a1.end_time = a2.start_time ∧ a1.duration ≥ 0) :=
  modify_schedule_valid_result [mkActivity (-10) 10 "sleep"]
    [mkActivity 0 10 "idle", mkActivity 10 20 "sleep"] (mkActivity 2 4 "socialize")
    _ (by decide)

/-! ## Generic list lemmas and the binary-search specification -/

section ListHelpers

variable {κ : Type} {p q : κ → Bool}

theorem takeWhile_getElem_true (l : List κ) (j : Nat)
    (h : j < (l.takeWhile p).length) : ∃ x, l[j]? = some x ∧ p x = true := by
  induction l generalizing j with
  | nil => simp [List.takeWhile] at h
  | cons a rest ih =>
    cases hp : p a with
    | false => simp [List.takeWhile_cons, hp] at h
    | true =>
      simp only [List.takeWhile_cons, hp, if_true, List.length_cons] at h
      cases j with
      | zero => exact ⟨a, by simp, hp⟩
      | succ j => simpa using ih j (by omega)

theorem takeWhile_length_le (l : List κ) : (l.takeWhile p).length ≤ l.length := by
  induction l with
  | nil => simp
  | cons a rest ih =>
    cases hp : p a <;> simp [List.takeWhile_cons, hp] <;> omega

theorem takeWhile_getElem_false (l : List κ)
    (h : (l.takeWhile p).length < l.length) :
    ∃ x, l[(l.takeWhile p).length]? = some x ∧ p x = false := by
  induction l with
  | nil => simp at h
  | cons a rest ih =>
    cases hp : p a with
    | false => exact ⟨a, by simp [List.takeWhile_cons, hp], hp⟩
    | true =>
      simp only [List.takeWhile_cons, hp, if_true, List.length_cons] at h ⊢
      simpa using ih (by omega)

theorem takeWhile_length_congr (l : List κ) (h : ∀ x ∈ l, p x = q x) :
    (l.takeWhile p).length = (l.takeWhile q).length := by
  induction l with
  | nil => rfl
  | cons a rest ih =>
    have ha := h a (by simp)
    cases hq : q a with
    | false => simp [List.takeWhile_cons, hq, ha.trans hq]
    | true =>
      have hpa : p a = true := ha.trans hq
      simp only [List.takeWhile_cons, hpa, hq, if_true, List.length_cons]
      rw [ih (fun x hx => h x (by simp [hx]))]

theorem takeWhile_length_map {μ : Type} (f : μ → κ) (l : List μ) :
    ((l.map f).takeWhile p).length = (l.takeWhile (fun x => p (f x))).length := by
  induction l with
  | nil => rfl
  | cons a rest ih =>
    cases hp : p (f a) with
    | false => simp [List.takeWhile_cons, hp]
    | true =>
      simp only [List.map_cons, List.takeWhile_cons, hp, if_true, List.length_cons]
      omega


end ListHelpers


theorem drop_takeWhile_length {κ : Type} (p : κ → Bool) (l : List κ) :
    l.drop (l.takeWhile p).length = l.dropWhile p := by
  induction l with
  | nil => rfl
  | cons a rest ih =>
    cases hp : p a with
    | false => simp [List.takeWhile_cons, List.dropWhile_cons, hp]
    | true => simp [List.takeWhile_cons, List.dropWhile_cons, hp, ih]

theorem bks_loop_sound (LUT : List (Int × Int)) (k : Int) :
    ∀ (fuel : Nat) (L U : Int) (i : Nat), _bks_loop LUT k fuel L U = some i →
      ∃ p, LUT[i]? = some p ∧ p.1 ≤ k ∧ k < p.2 := by
  intro fuel
  induction fuel with
  | zero => intro L U i h; simp [_bks_loop] at h
  | succ f ih =>
    intro L U i h
    rw [_bks_loop] at h
    split at h
    · dsimp only at h
      split at h
      · simp at h
      case _ p hp =>
        split at h
        · exact ih _ _ _ h
        · split at h
          · exact ih _ _ _ h
          · simp only [Option.some.injEq] at h
            subst h
            rename_i h1 h2
            exact ⟨p, hp, by omega, by omega⟩
    · simp at h

theorem bks_loop_none (LUT : List (Int × Int)) (k : Int)
    (hpw : LUT.Pairwise (fun p q => p.2 ≤ q.1))
    (hpos : ∀ p ∈ LUT, p.1 < p.2) :
    ∀ (fuel : Nat) (L U : Int), 0 ≤ L → U ≤ (LUT.length : Int) →
      (U + 1 - L).toNat < fuel →
      (∀ (j : Nat) (pj : Int × Int), (j : Int) < L → LUT[j]? = some pj → pj.2 ≤ k) →
      (∀ (j : Nat) (pj : Int × Int), (j : Int) > U → LUT[j]? = some pj → k < pj.1) →
      _bks_loop LUT k fuel L U = none →
      ∀ (j : Nat) (pj : Int × Int), LUT[j]? = some pj → ¬(pj.1 ≤ k ∧ k < pj.2) := by
  have hidx : ∀ (a b : Nat) (p1 p2 : Int × Int), a < b → LUT[a]? = some p1 →
      LUT[b]? = some p2 → p1.2 ≤ p2.1 := by
    rw [List.pairwise_iff_getElem] at hpw
    intro a b p1 p2 hab h1 h2
    obtain ⟨ha, he1⟩ := List.getElem?_eq_some.mp h1
    obtain ⟨hb, he2⟩ := List.getElem?_eq_some.mp h2
    have := hpw a b ha hb hab
    rw [he1, he2] at this
    exact this
  intro fuel
  induction fuel with
  | zero => intro L U h0 hU hm; omega
  | succ f ih =>
    intro L U h0 hU hm hleft hright h
    rw [_bks_loop] at h
    split at h
    case isTrue hLU =>
      dsimp only at h
      have hiL : L ≤ (L + U) / 2 := by omega
      have hiU : (L + U) / 2 ≤ U := by omega
      have hin : (((L + U) / 2).toNat : Int) = (L + U) / 2 := Int.toNat_of_nonneg (by omega)
      split at h
      case _ hnone =>
        have hlen : LUT.length ≤ ((L + U) / 2).toNat := by
          by_contra hc
          push_neg at hc
          rw [List.getElem?_eq_getElem hc] at hnone
          simp at hnone
        intro j pj hj hcont
        have hjlen : j < LUT.length := (List.getElem?_eq_some.mp hj).1
        have hjL : (j : Int) < L := by omega
        exact absurd (hleft j pj hjL hj) (by omega)
      case _ p hp =>
        have hplen : ((L + U) / 2).toNat < LUT.length := (List.getElem?_eq_some.mp hp).1
        have hpmem : p ∈ LUT := by
          obtain ⟨hlt, he⟩ := List.getElem?_eq_some.mp hp
          exact he ▸ List.getElem_mem hlt
        split at h
        case isTrue hle =>
          refine ih ((L + U) / 2 + 1) U (by omega) hU (by omega) ?_ hright h
          intro j pj hji hjg
          by_cases hjL : (j : Int) < L
          · exact hleft j pj hjL hjg
          · have hjlen : j < LUT.length := (List.getElem?_eq_some.mp hjg).1
            by_cases hje : j = ((L + U) / 2).toNat
            · subst hje
              rw [hjg] at hp
              simp only [Option.some.injEq] at hp
              subst hp
              omega
            · have hjlt : j < ((L + U) / 2).toNat := by omega
              have h2 := hidx j ((L + U) / 2).toNat pj p hjlt hjg hp
              have hppos := hpos p hpmem
              omega
        case isFalse hle =>
          split at h
          case isTrue hgt =>
            refine ih L ((L + U) / 2 - 1) h0 (by omega) (by omega) hleft ?_ h
            intro j pj hji hjg
            by_cases hjU : (j : Int) > U
            · exact hright j pj hjU hjg
            · have hjlen : j < LUT.length := (List.getElem?_eq_some.mp hjg).1
              by_cases hje : j = ((L + U) / 2).toNat
              · subst hje
                rw [hjg] at hp
                simp only [Option.some.injEq] at hp
                subst hp
                omega
              · have hjgt : ((L + U) / 2).toNat < j := by omega
                have h2 := hidx ((L + U) / 2).toNat j p pj hjgt hp hjg
                have hppos := hpos p hpmem
                omega
          case isFalse hgt => simp at h
    case isFalse hLU =>
      intro j pj hj hcont
      have hjlen : j < LUT.length := (List.getElem?_eq_some.mp hj).1
      by_cases hjL : (j : Int) < L
      · exact absurd (hleft j pj hjL hj) (by omega)
      · exact absurd (hright j pj (by omega) hj) (by omega)

theorem bks_sound (LUT : List (Int × Int)) (k : Int) (i : Nat)
    (h : _binary_key_search LUT k = some i) :
    ∃ p, LUT[i]? = some p ∧ p.1 ≤ k ∧ k < p.2 :=
  bks_loop_sound LUT k _ _ _ _ h

theorem bks_none (LUT : List (Int × Int)) (k : Int)
    (hpw : LUT.Pairwise (fun p q => p.2 ≤ q.1))
    (hpos : ∀ p ∈ LUT, p.1 < p.2)
    (h : _binary_key_search LUT k = none) :
    ∀ p ∈ LUT, ¬(p.1 ≤ k ∧ k < p.2) := by
  intro p hp hcont
  obtain ⟨j, hj, rfl⟩ := List.mem_iff_getElem.mp hp
  refine bks_loop_none LUT k hpw hpos (LUT.length + 2) 0 LUT.length (by omega) (by omega)
    (by omega) ?_ ?_ h j _ (List.getElem?_eq_getElem hj) hcont
  · intro j pj hjlt hjg
    omega
  · intro j pj hjgt hjg
    have hl := (List.getElem?_eq_some.mp hjg).1
    omega

theorem bks_contains_unique (LUT : List (Int × Int)) (k : Int)
    (hpw : LUT.Pairwise (fun p q => p.2 ≤ q.1))
    (hpos : ∀ p ∈ LUT, p.1 < p.2)
    (i j : Nat) (p q : Int × Int)
    (hi : LUT[i]? = some p) (hj : LUT[j]? = some q)
    (hpk : p.1 ≤ k ∧ k < p.2) (hqk : q.1 ≤ k ∧ k < q.2) : i = j := by
  have hidx : ∀ (a b : Nat) (p1 p2 : Int × Int), a < b → LUT[a]? = some p1 →
      LUT[b]? = some p2 → p1.2 ≤ p2.1 := by
    rw [List.pairwise_iff_getElem] at hpw
    intro a b p1 p2 hab h1 h2
    obtain ⟨ha, he1⟩ := List.getElem?_eq_some.mp h1
    obtain ⟨hb, he2⟩ := List.getElem?_eq_some.mp h2
    have := hpw a b ha hb hab
    rw [he1, he2] at this
    exact this
  rcases Nat.lt_trichotomy i j with hlt | heq | hgt
  · have := hidx i j p q hlt hi hj
    omega
  · exact heq
  · have := hidx j i q p hgt hj hi
    omega

theorem bks_eq_of_contains (LUT : List (Int × Int)) (k : Int)
    (hpw : LUT.Pairwise (fun p q => p.2 ≤ q.1))
    (hpos : ∀ p ∈ LUT, p.1 < p.2)
    (i : Nat) (p : Int × Int) (hi : LUT[i]? = some p)
    (hpk : p.1 ≤ k ∧ k < p.2) :
    _binary_key_search LUT k = some i := by
  cases hbk : _binary_key_search LUT k with
  | none =>
    have hmem : p ∈ LUT := by
      obtain ⟨hil, hie⟩ := List.getElem?_eq_some.mp hi
      exact hie ▸ List.getElem_mem hil
    exact absurd hpk (bks_none LUT k hpw hpos hbk p hmem)
  | some i' =>
    obtain ⟨p', hp', hc'⟩ := bks_sound LUT k i' hbk
    rw [bks_contains_unique LUT k hpw hpos i' i p' p hp' hi hc' hpk]

/-! ## C1: Interval Store insert/delete invariants -/

/-! C1 support: characterizations of the bisect indices -/

theorem take_takeWhile_length {κ : Type} (p : κ → Bool) (l : List κ) :
    l.take (l.takeWhile p).length = l.takeWhile p := by
  induction l with
  | nil => rfl
  | cons a rest ih =>
    cases hp : p a with
    | false => simp [List.takeWhile_cons, hp]
    | true => simp [List.takeWhile_cons, hp, ih]

theorem pairLtb_point_a (a : Int) (x : Int × Int) (hx : x.1 < x.2) :
    pairLtb x (a, a) = decide (x.1 < a) := by
  rw [Bool.eq_iff_iff]
  simp only [pairLtb, Bool.or_eq_true, Bool.and_eq_true, decide_eq_true_eq, beq_iff_eq]
  omega

theorem pairLtb_point_b_swap (b : Int) (x : Int × Int) (hx : x.1 < x.2) :
    pairLtb (x.2, x.1) (b, b) = decide (x.2 ≤ b) := by
  rw [Bool.eq_iff_iff]
  simp only [pairLtb, Bool.or_eq_true, Bool.and_eq_true, decide_eq_true_eq, beq_iff_eq]
  omega

/-- Under well-formedness, `bisect_left FLUT (a, a)` counts the leading
intervals starting before `a`. -/
theorem bisect_left_point_a {α : Type} (rd : RangeDict α) (hwf : rd.WF) (a : Int) :
    bisect_left rd.FLUT (a, a)
      = (rd.FLUT.takeWhile (fun x => decide (x.1 < a))).length := by
  obtain ⟨hpw, hpos, hblut, hperm⟩ := hwf
  exact takeWhile_length_congr rd.FLUT (fun x hx => pairLtb_point_a a x (hpos x hx))

/-- Under well-formedness, `bisect_left BLUT (b, b)` counts the leading
intervals ending at or before `b`. -/
theorem bisect_left_point_b {α : Type} (rd : RangeDict α) (hwf : rd.WF) (b : Int) :
    bisect_left rd.BLUT (b, b)
      = (rd.FLUT.takeWhile (fun x => decide (x.2 ≤ b))).length := by
  obtain ⟨hpw, hpos, hblut, hperm⟩ := hwf
  unfold bisect_left
  rw [hblut, takeWhile_length_map]
  exact takeWhile_length_congr rd.FLUT (fun x hx => pairLtb_point_b_swap b x (hpos x hx))

theorem check_range_ok_of_no_overlap {α : Type} (rd : RangeDict α) (hwf : rd.WF) (a b : Int)
    (hab : a < b) (hno : ∀ x ∈ rd.FLUT, ¬(x.1 < b ∧ a < x.2)) :
    rd._check_range (a, b) = .ok () := by
  have hpw := hwf.1
  have hpos := hwf.2.1
  have hblut := hwf.2.2.1
  have hif : bisect_left rd.FLUT (a, a) = bisect_left rd.BLUT (b, b) := by
    rw [bisect_left_point_a rd hwf a, bisect_left_point_b rd hwf b]
    apply takeWhile_length_congr
    intro x hx
    have h1 := hpos x hx
    have h2 := hno x hx
    rw [Bool.eq_iff_iff]
    simp only [decide_eq_true_eq]
    omega
  have hchar := bisect_left_point_a rd hwf a
  unfold RangeDict._check_range
  rw [if_neg (by simp; omega)]
  dsimp only
  by_cases hemp : rd.FLUT = []
  · rw [if_pos ⟨hemp, by rw [hblut, hemp]; rfl⟩]
  · rw [if_neg (fun hc => hemp hc.1), if_pos hif]
    have hlenpos : 0 < rd.FLUT.length := List.length_pos.mpr hemp
    by_cases h0 : bisect_left rd.FLUT (a, a) = 0
    · rw [if_pos h0]
      have h0' : (rd.FLUT.takeWhile (fun x => decide (x.1 < a))).length = 0 := by
        rw [← hchar]; exact h0
      obtain ⟨x, hx0, hxf⟩ :=
        takeWhile_getElem_false (p := fun x => decide (x.1 < a)) rd.FLUT (by omega)
      rw [h0'] at hx0
      rw [hx0]
      dsimp only
      have hxmem : x ∈ rd.FLUT := by
        obtain ⟨hl, he⟩ := List.getElem?_eq_some.mp hx0
        exact he ▸ List.getElem_mem hl
      have hx1 : ¬(x.1 < a) := by simpa using hxf
      have := hno x hxmem
      have := hpos x hxmem
      rw [if_neg (by omega)]
    · by_cases hlen : bisect_left rd.FLUT (a, a) = rd.FLUT.length
      · rw [if_neg h0, if_pos hlen]
        have hq := List.getLast?_eq_getElem? rd.FLUT
        obtain ⟨x, hx0, hxt⟩ :=
          takeWhile_getElem_true (p := fun x => decide (x.1 < a)) rd.FLUT
            (rd.FLUT.length - 1) (by rw [← hchar]; omega)
        rw [hq, hx0]
        dsimp only
        have hxmem : x ∈ rd.FLUT := by
          obtain ⟨hl, he⟩ := List.getElem?_eq_some.mp hx0
          exact he ▸ List.getElem_mem hl
        have hx1 : x.1 < a := by simpa using hxt
        have := hno x hxmem
        rw [if_neg (by omega)]
      · rw [if_neg h0, if_neg hlen]
        have hmle := takeWhile_length_le (p := fun x => decide (x.1 < a)) rd.FLUT
        have hmlen : bisect_left rd.FLUT (a, a) < rd.FLUT.length := by
          rw [hchar] at *; omega
        obtain ⟨x, hx0, hxf⟩ :=
          takeWhile_getElem_false (p := fun x => decide (x.1 < a)) rd.FLUT (by omega)
        rw [← hchar] at hx0
        obtain ⟨y, hy0, hyt⟩ :=
          takeWhile_getElem_true (p := fun x => decide (x.1 < a)) rd.FLUT
            (bisect_left rd.FLUT (a, a) - 1) (by rw [hchar] at *; omega)
        rw [hy0, hx0]
        dsimp only
        have hxmem : x ∈ rd.FLUT := by
          obtain ⟨hl, he⟩ := List.getElem?_eq_some.mp hx0
          exact he ▸ List.getElem_mem hl
        have hymem : y ∈ rd.FLUT := by
          obtain ⟨hl, he⟩ := List.getElem?_eq_some.mp hy0
          exact he ▸ List.getElem_mem hl
        have hx1 : ¬(x.1 < a) := by simpa using hxf
        have hy1 : y.1 < a := by simpa using hyt
        have := hno x hxmem
        have := hno y hymem
        have := hpos x hxmem
        have := hpos y hymem
        rw [if_neg (by omega)]

theorem check_range_err_of_overlap {α : Type} (rd : RangeDict α) (hwf : rd.WF) (a b : Int)
    (hab : a < b) (x : Int × Int) (hx : x ∈ rd.FLUT) (hov : x.1 < b ∧ a < x.2) :
    ∃ e, rd._check_range (a, b) = .error e := by
  have hpw := hwf.1
  have hpos := hwf.2.1
  have hchar := bisect_left_point_a rd hwf a
  have hidx : ∀ i j (hi : i < rd.FLUT.length) (hj : j < rd.FLUT.length), i < j →
      (rd.FLUT[i]).2 ≤ (rd.FLUT[j]).1 := by
    rw [List.pairwise_iff_getElem] at hpw
    exact fun i j hi hj hij => hpw i j hi hj hij
  have hposIdx : ∀ i (hi : i < rd.FLUT.length), (rd.FLUT[i]).1 < (rd.FLUT[i]).2 :=
    fun i hi => hpos _ (List.getElem_mem hi)
  unfold RangeDict._check_range
  rw [if_neg (by simp; omega)]
  dsimp only
  have hemp : ¬(rd.FLUT = []) := by
    intro h
    rw [h] at hx
    simp at hx
  rw [if_neg (fun hc => hemp hc.1)]
  by_cases hif : bisect_left rd.FLUT (a, a) = bisect_left rd.BLUT (b, b)
  case neg => rw [if_neg hif]; exact ⟨_, rfl⟩
  case pos =>
  rw [if_pos hif]
  obtain ⟨jx, hjx, rfl⟩ := List.mem_iff_getElem.mp hx
  have hmle := takeWhile_length_le (p := fun x => decide (x.1 < a)) rd.FLUT
  by_cases hxa : (rd.FLUT[jx]).1 < a
  · -- the overlapping interval starts before a: its block reaches past a,
    -- and so does the interval just before the insertion point
    have hjm : jx < (rd.FLUT.takeWhile (fun x => decide (x.1 < a))).length := by
      by_contra hc
      push_neg at hc
      have hlt : (rd.FLUT.takeWhile (fun x => decide (x.1 < a))).length < rd.FLUT.length := by
        omega
      obtain ⟨w, hw, hwff⟩ := takeWhile_getElem_false (p := fun x => decide (x.1 < a)) rd.FLUT hlt
      obtain ⟨hwl, hwe⟩ := List.getElem?_eq_some.mp hw
      have hw1 : ¬(w.1 < a) := by simpa using hwff
      rcases Nat.lt_or_ge (rd.FLUT.takeWhile (fun x => decide (x.1 < a))).length jx with hlt2 | hge
      · have h2 := hidx _ jx hwl hjx hlt2
        rw [hwe] at h2
        have := hposIdx _ hwl
        rw [hwe] at this
        omega
      · have hje : jx = (rd.FLUT.takeWhile (fun x => decide (x.1 < a))).length := by omega
        subst hje
        rw [List.getElem?_eq_getElem hjx] at hw
        simp only [Option.some.injEq] at hw
        rw [← hw] at hw1
        exact hw1 hxa
    have h0 : ¬(bisect_left rd.FLUT (a, a) = 0) := by omega
    have hq2 : ∀ (hq : (bisect_left rd.FLUT (a, a) - 1) < rd.FLUT.length),
        a < (rd.FLUT[bisect_left rd.FLUT (a, a) - 1]).2 := by
      intro hq
      rcases Nat.lt_or_ge jx (bisect_left rd.FLUT (a, a) - 1) with hlt2 | hge
      · have h2 := hidx jx _ hjx hq hlt2
        have := hposIdx _ hq
        omega
      · have hje : jx = bisect_left rd.FLUT (a, a) - 1 := by omega
        subst hje
        omega
    by_cases hlen : bisect_left rd.FLUT (a, a) = rd.FLUT.length
    · rw [if_neg h0, if_pos hlen]
      have hlast := List.getLast?_eq_getElem? rd.FLUT
      have hlt : rd.FLUT.length - 1 < rd.FLUT.length := by omega
      rw [hlast, List.getElem?_eq_getElem hlt]
      dsimp only
      have hle : bisect_left rd.FLUT (a, a) - 1 = rd.FLUT.length - 1 := by omega
      have hq3 := hq2 (by omega)
      simp only [hle] at hq3
      rw [if_pos (by omega)]
      exact ⟨_, rfl⟩
    · rw [if_neg h0, if_neg hlen]
      have hm1 : bisect_left rd.FLUT (a, a) - 1 < rd.FLUT.length := by omega
      have hm : bisect_left rd.FLUT (a, a) < rd.FLUT.length := by omega
      rw [List.getElem?_eq_getElem hm1, List.getElem?_eq_getElem hm]
      dsimp only
      rw [if_pos (Or.inl (hq2 hm1))]
      exact ⟨_, rfl⟩
  · -- the overlapping interval starts at or after a: the interval at the
    -- insertion point starts before b
    have hjm : (rd.FLUT.takeWhile (fun x => decide (x.1 < a))).length ≤ jx := by
      by_contra hc
      push_neg at hc
      obtain ⟨w, hw, hwt⟩ := takeWhile_getElem_true (p := fun x => decide (x.1 < a)) rd.FLUT jx hc
      rw [List.getElem?_eq_getElem hjx] at hw
      simp only [Option.some.injEq] at hw
      rw [← hw] at hwt
      simp at hwt
      exact hxa hwt
    have hmlt : bisect_left rd.FLUT (a, a) < rd.FLUT.length := by omega
    have hp1 : (rd.FLUT[bisect_left rd.FLUT (a, a)]).1 < b := by
      rcases Nat.lt_or_ge (bisect_left rd.FLUT (a, a)) jx with hlt2 | hge
      · have h2 := hidx _ jx hmlt hjx hlt2
        have := hposIdx _ hmlt
        omega
      · have hje : bisect_left rd.FLUT (a, a) = jx := by omega
        simp only [hje]
        exact hov.1
    by_cases h0 : bisect_left rd.FLUT (a, a) = 0
    · rw [if_pos h0]
      have h0lt : 0 < rd.FLUT.length := by omega
      rw [List.getElem?_eq_getElem h0lt]
      dsimp only
      rw [if_pos (by simp only [h0] at hp1; exact hp1)]
      exact ⟨_, rfl⟩
    · have hlen : ¬(bisect_left rd.FLUT (a, a) = rd.FLUT.length) := by omega
      rw [if_neg h0, if_neg hlen]
      have hm1 : bisect_left rd.FLUT (a, a) - 1 < rd.FLUT.length := by omega
      rw [List.getElem?_eq_getElem hm1, List.getElem?_eq_getElem hmlt]
      dsimp only
      rw [if_pos (Or.inr hp1)]
      exact ⟨_, rfl⟩

theorem pairLtb_key (a b : Int) (hab : a < b) (x : Int × Int) (hx : x.1 < x.2)
    (hno : ¬(x.1 < b ∧ a < x.2)) : pairLtb x (a, b) = decide (x.1 < a) := by
  rw [Bool.eq_iff_iff]
  simp only [pairLtb, Bool.or_eq_true, Bool.and_eq_true, decide_eq_true_eq, beq_iff_eq]
  omega

theorem pairLtb_swap_key (a b : Int) (hab : a < b) (x : Int × Int) (hx : x.1 < x.2)
    (hno : ¬(x.1 < b ∧ a < x.2)) : pairLtb (x.2, x.1) (b, a) = decide (x.1 < a) := by
  rw [Bool.eq_iff_iff]
  simp only [pairLtb, Bool.or_eq_true, Bool.and_eq_true, decide_eq_true_eq, beq_iff_eq]
  omega

theorem insort_left_eq (l : List (Int × Int)) (k : Int × Int) :
    insort_left l k
      = l.takeWhile (fun x => pairLtb x k) ++ k :: l.dropWhile (fun x => pairLtb x k) := by
  unfold insort_left bisect_left
  rw [take_takeWhile_length, drop_takeWhile_length]

theorem insert_WF {α : Type} (rd : RangeDict α) (hwf : rd.WF) (a b : Int) (v : α)
    (hab : a < b) (hno : ∀ x ∈ rd.FLUT, ¬(x.1 < b ∧ a < x.2)) :
    (RangeDict.mk (insort_left rd.FLUT (a, b)) (insort_left rd.BLUT (b, a))
      (storeInsert rd.store (a, b) v)).WF := by
  have hpw := hwf.1
  have hpos := hwf.2.1
  have hblut := hwf.2.2.1
  have hperm := hwf.2.2.2
  have hsplit := List.takeWhile_append_dropWhile (fun x => pairLtb x (a, b)) rd.FLUT
  have hmemtw : ∀ x ∈ rd.FLUT.takeWhile (fun x => pairLtb x (a, b)), x ∈ rd.FLUT := by
    intro x hx
    rw [← hsplit]
    exact List.mem_append_left _ hx
  have hmemdw : ∀ x ∈ rd.FLUT.dropWhile (fun x => pairLtb x (a, b)), x ∈ rd.FLUT :=
    fun x hx => (List.dropWhile_sublist _).subset hx
  -- every element of the take part ends at or before a
  have htw : ∀ x ∈ rd.FLUT.takeWhile (fun x => pairLtb x (a, b)), x.2 ≤ a := by
    intro x hx
    have hmem := hmemtw x hx
    have hp := List.mem_takeWhile_imp hx
    rw [pairLtb_key a b hab x (hpos x hmem) (hno x hmem)] at hp
    simp only [decide_eq_true_eq] at hp
    have := hno x hmem
    omega
  -- every element of the drop part starts at or after b
  have hdw : ∀ y ∈ rd.FLUT.dropWhile (fun x => pairLtb x (a, b)), b ≤ y.1 := by
    intro y hy
    cases hd : rd.FLUT.dropWhile (fun x => pairLtb x (a, b)) with
    | nil => rw [hd] at hy; simp at hy
    | cons y0 d' =>
      have hy0f : pairLtb y0 (a, b) = false := by
        have hh : (rd.FLUT.dropWhile (fun x => pairLtb x (a, b))).head? = some y0 := by
          rw [hd]; rfl
        rw [← drop_takeWhile_length, List.head?_drop] at hh
        obtain ⟨w, hw, hwf2⟩ := takeWhile_getElem_false (p := fun x => pairLtb x (a, b))
          rd.FLUT (by
            by_contra hc
            push_neg at hc
            have : rd.FLUT.drop (rd.FLUT.takeWhile (fun x => pairLtb x (a, b))).length = [] :=
              List.drop_eq_nil_of_le hc
            rw [drop_takeWhile_length] at this
            rw [this] at hd
            simp at hd)
        rw [hw] at hh
        simp only [Option.some.injEq] at hh
        rw [hh] at hwf2
        exact hwf2
      have hy0mem : y0 ∈ rd.FLUT := hmemdw y0 (by rw [hd]; simp)
      have hy0a : ¬(y0.1 < a) := by
        rw [pairLtb_key a b hab y0 (hpos y0 hy0mem) (hno y0 hy0mem)] at hy0f
        simpa using hy0f
      have hy0b : b ≤ y0.1 := by
        have := hno y0 hy0mem
        have := hpos y0 hy0mem
        omega
      rw [hd] at hy
      rcases List.mem_cons.mp hy with rfl | hy'
      · exact hy0b
      · have hpwd : (rd.FLUT.dropWhile (fun x => pairLtb x (a, b))).Pairwise
            (fun p q => p.2 ≤ q.1) :=
          List.Pairwise.sublist (List.dropWhile_sublist _) hpw
        rw [hd] at hpwd
        have h2 := (List.pairwise_cons.mp hpwd).1 y hy'
        have := hpos y0 hy0mem
        omega
  refine ⟨?_, ?_, ?_, ?_⟩
  · -- sorted and disjoint
    rw [insort_left_eq]
    rw [← hsplit] at hpw
    obtain ⟨pwt, pwd, cross⟩ := List.pairwise_append.mp hpw
    refine List.pairwise_append.mpr ⟨pwt, List.pairwise_cons.mpr ⟨?_, pwd⟩, ?_⟩
    · intro y hy
      exact hdw y hy
    · intro x hx y hy
      rcases List.mem_cons.mp hy with rfl | hy'
      · exact htw x hx
      · exact cross x hx y hy'
  · -- positivity
    intro p hp
    rw [insort_left_eq] at hp
    rcases List.mem_append.mp hp with hp' | hp'
    · exact hpos p (hmemtw p hp')
    · rcases List.mem_cons.mp hp' with rfl | hp''
      · exact hab
      · exact hpos p (hmemdw p hp'')
  · -- BLUT mirrors FLUT
    rw [hblut]
    unfold insort_left bisect_left
    have hn : ((rd.FLUT.map (fun p => (p.2, p.1))).takeWhile (fun x => pairLtb x (b, a))).length
        = (rd.FLUT.takeWhile (fun x => pairLtb x (a, b))).length := by
      rw [takeWhile_length_map]
      apply takeWhile_length_congr
      intro x hx
      rw [pairLtb_swap_key a b hab x (hpos x hx) (hno x hx),
        pairLtb_key a b hab x (hpos x hx) (hno x hx)]
    rw [hn, ← List.map_take, ← List.map_drop]
    simp
  · -- store keys are a permutation of FLUT
    have hnotin : (a, b) ∉ rd.store.map Prod.fst := by
      intro hin
      have : (a, b) ∈ rd.FLUT := hperm.mem_iff.mp hin
      have := hno (a, b) this
      simp at this
      omega
    have hfind : rd.store.find? (fun kv => kv.1 == (a, b)) = none := by
      rw [List.find?_eq_none]
      intro kv hkv hbeq
      apply hnotin
      simp only [beq_iff_eq] at hbeq
      rw [← hbeq]
      exact List.mem_map_of_mem Prod.fst hkv
    unfold storeInsert
    rw [hfind]
    simp only [Option.isSome_none, Bool.false_eq_true, if_false, List.map_append]
    have h1 : List.Perm (rd.store.map Prod.fst ++ [(a, b)]) (rd.FLUT ++ [(a, b)]) :=
      hperm.append_right _
    have h2 : List.Perm (rd.FLUT ++ [(a, b)]) ((a, b) :: rd.FLUT) :=
      List.perm_append_singleton _ _
    have h3 : (a, b) :: rd.FLUT
        = (a, b) :: (rd.FLUT.take (bisect_left rd.FLUT (a, b))
            ++ rd.FLUT.drop (bisect_left rd.FLUT (a, b))) := by rw [List.take_append_drop]
    have h4 : List.Perm
        ((a, b) :: (rd.FLUT.take (bisect_left rd.FLUT (a, b))
            ++ rd.FLUT.drop (bisect_left rd.FLUT (a, b))))
        (rd.FLUT.take (bisect_left rd.FLUT (a, b))
            ++ (a, b) :: rd.FLUT.drop (bisect_left rd.FLUT (a, b))) := List.perm_middle.symm
    unfold insort_left
    simpa using ((h1.trans h2).trans (h3 ▸ h4))

theorem map_eraseIdx' {β γ : Type} (f : β → γ) :
    ∀ (l : List β) (i : Nat), (l.eraseIdx i).map f = (l.map f).eraseIdx i := by
  intro l
  induction l with
  | nil => intro i; rfl
  | cons a rest ih =>
    intro i
    cases i with
    | zero => rfl
    | succ i => simp [List.eraseIdx_cons_succ, ih]

theorem map_fst_eraseP {α : Type} (store : List ((Int × Int) × α)) (k : Int × Int) :
    (store.eraseP (fun kv => kv.1 == k)).map Prod.fst
      = (store.map Prod.fst).eraseP (fun x => x == k) := by
  induction store with
  | nil => rfl
  | cons kv rest ih =>
    cases hk : (kv.1 == k) with
    | true => simp [List.eraseP_cons, hk]
    | false => simp [List.eraseP_cons, hk, ih]

theorem nodup_of_sorted (l : List (Int × Int))
    (hpw : l.Pairwise (fun p q => p.2 ≤ q.1)) (hpos : ∀ p ∈ l, p.1 < p.2) : l.Nodup := by
  refine List.pairwise_iff_getElem.mpr ?_
  intro i j hi hj hij
  rw [List.pairwise_iff_getElem] at hpw
  have h1 := hpw i j hi hj hij
  have p1 := hpos _ (List.getElem_mem hi)
  have p2 := hpos _ (List.getElem_mem hj)
  intro heq
  have : (l[i]).1 = (l[j]).1 := by rw [heq]
  omega

theorem eraseP_pred_congr {β : Type} (p q : β → Bool) (l : List β) (h : ∀ x, p x = q x) :
    l.eraseP p = l.eraseP q := by
  induction l with
  | nil => rfl
  | cons a rest ih =>
    rw [List.eraseP_cons, List.eraseP_cons, h a]
    cases q a with
    | true => rfl
    | false => rw [ih]

theorem eraseIdx_eq_eraseP (l : List (Int × Int)) (i : Nat) (x : Int × Int)
    (hnd : l.Nodup) (hx : l[i]? = some x) :
    l.eraseIdx i = l.eraseP (fun y => decide (y = x)) := by
  induction l generalizing i with
  | nil => simp at hx
  | cons a rest ih =>
    cases i with
    | zero =>
      simp only [List.getElem?_cons_zero, Option.some.injEq] at hx
      subst hx
      simp [List.eraseIdx_cons_zero, List.eraseP_cons]
    | succ i =>
      simp only [List.getElem?_cons_succ] at hx
      have hxm : x ∈ rest := by
        obtain ⟨hl, he⟩ := List.getElem?_eq_some.mp hx
        exact he ▸ List.getElem_mem hl
      have hax : a ≠ x := by
        have := (List.nodup_cons.mp hnd).1
        intro heq
        exact this (heq ▸ hxm)
      rw [List.eraseIdx_cons_succ, List.eraseP_cons]
      simp only [hax, decide_False, cond_false]
      rw [ih i (List.nodup_cons.mp hnd).2 hx]

theorem perm_eraseP_eq {β : Type} [DecidableEq β] (k : β) {l₁ l₂ : List β}
    (h : l₁.Perm l₂) :
    (l₁.eraseP (fun x => decide (x = k))).Perm (l₂.eraseP (fun x => decide (x = k))) := by
  have h2 := h.erase k
  rw [List.erase_eq_eraseP' k, List.erase_eq_eraseP' k] at h2
  exact h2

theorem delete_WF {α : Type} (rd : RangeDict α) (hwf : rd.WF) (key : Int)
    (rd' : RangeDict α) (h : rd.delitem key = .ok rd') : rd'.WF := by
  have hpw := hwf.1
  have hpos := hwf.2.1
  have hblut := hwf.2.2.1
  have hperm := hwf.2.2.2
  unfold RangeDict.delitem at h
  split at h
  · simp at h
  case _ i hbk =>
  split at h
  · simp at h
  case _ k hk =>
  split at h
  case isTrue hsm =>
    simp only [Except.ok.injEq] at h
    subst h
    have hnd := nodup_of_sorted rd.FLUT hpw hpos
    refine ⟨?_, ?_, ?_, ?_⟩
    · exact List.Pairwise.sublist (List.eraseIdx_sublist _ _) hpw
    · exact fun p hp => hpos p ((List.eraseIdx_sublist _ _).subset hp)
    · show rd.BLUT.eraseIdx i = (rd.FLUT.eraseIdx i).map (fun p => (p.2, p.1))
      rw [map_eraseIdx', hblut]
    · show ((storeErase rd.store k).map Prod.fst).Perm (rd.FLUT.eraseIdx i)
      unfold storeErase
      rw [map_fst_eraseP,
        eraseP_pred_congr (fun x => x == k) (fun x => decide (x = k)) _
          (fun x => by rw [Bool.eq_iff_iff]; simp),
        eraseIdx_eq_eraseP rd.FLUT i k hnd hk]
      exact perm_eraseP_eq k hperm
  case isFalse hsm => simp at h

/-- C1: for every well-formed Interval Store, an insert whose key range is
empty/inverted or overlaps an already-stored interval fails with a
`RangDictKeyException` and (the embedding being pure, `_check_range` raising
before any mutation) leaves the store unchanged; every accepted insert
keeps the stored intervals pairwise disjoint and sorted by start time
(`WF`), inserting the new range in order; ranges sharing only an endpoint
are not overlaps, so both are accepted; and deletion preserves the
invariant, covering every sequence of insert and delete operations. -/
theorem rangedict_insert_delete_spec {α : Type} (rd : RangeDict α) (hwf : rd.WF) :
    (∀ (a b : Int) (v : α), (b ≤ a ∨ ∃ p ∈ rd.FLUT, p.1 < b ∧ a < p.2) →
        ∃ e, rd.setitem (a, b) v = .error e) ∧
    (∀ (a b : Int) (v : α), a < b → (∀ p ∈ rd.FLUT, ¬(p.1 < b ∧ a < p.2)) →
        ∃ rd', rd.setitem (a, b) v = .ok rd' ∧ rd'.WF ∧
          rd'.FLUT = insort_left rd.FLUT (a, b)) ∧
    (∀ (key : Int) (rd' : RangeDict α), rd.delitem key = .ok rd' → rd'.WF) := by
  refine ⟨?_, ?_, fun key rd' h => delete_WF rd hwf key rd' h⟩
  · intro a b v hbad
    by_cases hba : a < b
    · rcases hbad with hle | ⟨x, hx, hov⟩
      · omega
      · obtain ⟨e, he⟩ := check_range_err_of_overlap rd hwf a b hba x hx hov
        exact ⟨e, by unfold RangeDict.setitem; rw [he]⟩
    · have hc : rd._check_range (a, b)
          = .error (.rangDictKeyException
              "Range is not valid, should be (min, max); must be different") := by
        unfold RangeDict._check_range
        rw [if_pos (by simp; omega)]
      exact ⟨_, by unfold RangeDict.setitem; rw [hc]⟩
  · intro a b v hab hno
    have hok := check_range_ok_of_no_overlap rd hwf a b hab hno
    refine ⟨_, ?_, insert_WF rd hwf a b v hab hno, rfl⟩
    unfold RangeDict.setitem
    rw [hok]

/-- Witness for C1: a rejected overlapping insert, an accepted adjacent
insert, and a deletion, on a concrete store. -/
theorem rangedict_insert_delete_spec_witness :
    (∃ e, RangeDict.setitem (α := Nat) ⟨[(5, 10)], [(10, 5)], [((5, 10), 1)]⟩ (7, 12) 2
        = .error e) ∧
    (∃ rd', RangeDict.setitem (α := Nat) ⟨[(5, 10)], [(10, 5)], [((5, 10), 1)]⟩ (10, 12) 2
        = .ok rd' ∧ rd'.WF ∧ rd'.FLUT = insort_left [(5, 10)] (10, 12)) ∧
    (RangeDict.mk [] [] ([] : List ((Int × Int) × Nat))).WF :=
  ⟨(rangedict_insert_delete_spec (α := Nat) ⟨[(5, 10)], [(10, 5)], [((5, 10), 1)]⟩
      (by decide)).1 7 12 2 (Or.inr ⟨(5, 10), by decide, by decide⟩),
   (rangedict_insert_delete_spec (α := Nat) ⟨[(5, 10)], [(10, 5)], [((5, 10), 1)]⟩
      (by decide)).2.1 10 12 2 (by decide) (by decide),
   (rangedict_insert_delete_spec (α := Nat) ⟨[(5, 10)], [(10, 5)], [((5, 10), 1)]⟩
      (by decide)).2.2 7 ⟨[], [], []⟩ (by rfl)⟩

/-! ## C7 and C8: get_range behaviour and the error taxonomy -/

/-- The exception class ("kind") of an error, as a Python `except` clause
would see it. -/
def PyError.kind : PyError → String
  | .rangDictKeyException _ => "RangDictKeyException"
  | .assertionError _ => "AssertionError"
  | .keyError => "KeyError"
  | .indexError => "IndexError"
  | .nameError => "NameError"

theorem storeLookup_isSome_of_mem {α : Type} (store : List ((Int × Int) × α))
    (l : List (Int × Int)) (hperm : (store.map Prod.fst).Perm l) (k : Int × Int)
    (hk : k ∈ l) : (storeLookup store k).isSome := by
  unfold storeLookup
  have hm : k ∈ store.map Prod.fst := hperm.mem_iff.mpr hk
  obtain ⟨kv, hkv, hfst⟩ := List.mem_map.mp hm
  have : (store.find? (fun kv => kv.1 == k)).isSome := by
    rw [List.find?_isSome]
    exact ⟨kv, hkv, by simp [hfst]⟩
  cases hf : store.find? (fun kv => kv.1 == k) with
  | none => rw [hf] at this; simp at this
  | some kv2 => rfl

theorem check_range_error_form {α : Type} (rd : RangeDict α) (hwf : rd.WF)
    (key : Int × Int) (e : PyError) (h : rd._check_range key = .error e) :
    ∃ m, e = .rangDictKeyException m ∧ m ≠ "Key not found" := by
  have hblut := hwf.2.2.1
  have hle1 : bisect_left rd.FLUT (key.1, key.1) ≤ rd.FLUT.length :=
    takeWhile_length_le rd.FLUT
  unfold RangeDict._check_range at h
  split at h
  · simp only [Except.error.injEq] at h
    exact ⟨_, h.symm, by decide⟩
  dsimp only at h
  split at h
  · simp at h
  case _ hne =>
  split at h
  case isTrue hif =>
    split at h
    case isTrue h0 =>
      split at h
      case _ hn =>
        exfalso
        have : rd.FLUT = [] := by
          cases hfl : rd.FLUT with
          | nil => rfl
          | cons x xs => rw [hfl] at hn; simp at hn
        exact hne ⟨this, by rw [hblut, this]; rfl⟩
      case _ p hp =>
        split at h
        · simp only [Except.error.injEq] at h
          exact ⟨_, h.symm, by decide⟩
        · simp at h
    case isFalse h0 =>
      split at h
      case isTrue hlen =>
        split at h
        case _ hn =>
          exfalso
          have : rd.FLUT = [] := by
            cases hfl : rd.FLUT with
            | nil => rfl
            | cons x xs => rw [hfl] at hn; simp at hn
          exact hne ⟨this, by rw [hblut, this]; rfl⟩
        case _ q hq =>
          split at h
          · simp only [Except.error.injEq] at h
            exact ⟨_, h.symm, by decide⟩
          · simp at h
      case isFalse hlen =>
        split at h
        case _ q p hq hp =>
          split at h
          · simp only [Except.error.injEq] at h
            exact ⟨_, h.symm, by decide⟩
          · simp at h
        case _ hnx =>
          exfalso
          have h1 : bisect_left rd.FLUT (key.1, key.1) - 1 < rd.FLUT.length := by omega
          have h2 : bisect_left rd.FLUT (key.1, key.1) < rd.FLUT.length := by omega
          exact hnx _ _ (List.getElem?_eq_getElem h1) (List.getElem?_eq_getElem h2)
  case isFalse hif =>
    simp only [Except.error.injEq] at h
    exact ⟨_, h.symm, by decide⟩

/-- C8 (amended): under well-formedness, a failed point lookup raises
`RangDictKeyException` with message "Key not found", and a failed insert
raises `RangDictKeyException` with a different message — the class is the
same, only the message distinguishes them. -/
theorem rangedict_error_messages {α : Type} (rd : RangeDict α) (hwf : rd.WF) :
    (∀ (key : Int) (e : PyError), rd.getitem key = .error e →
        e = .rangDictKeyException "Key not found") ∧
    (∀ (key : Int × Int) (v : α) (e : PyError), rd.setitem key v = .error e →
        ∃ m, e = .rangDictKeyException m ∧ m ≠ "Key not found") := by
  constructor
  · intro key e h
    unfold RangeDict.getitem at h
    split at h
    · simp only [Except.error.injEq] at h
      exact h.symm
    case _ i hbk =>
      obtain ⟨p, hp, hc⟩ := bks_sound rd.FLUT key i hbk
      split at h
      case _ hn => rw [hp] at hn; simp at hn
      case _ k hk =>
        rw [hp] at hk
        simp only [Option.some.injEq] at hk
        subst hk
        have hmem : p ∈ rd.FLUT := by
          obtain ⟨hl, he⟩ := List.getElem?_eq_some.mp hp
          exact he ▸ List.getElem_mem hl
        have hsome := storeLookup_isSome_of_mem rd.store rd.FLUT hwf.2.2.2 p hmem
        split at h
        case _ hn => rw [hn] at hsome; simp at hsome
        case _ v hv => simp at h
  · intro key v e h
    unfold RangeDict.setitem at h
    split at h
    case _ e' he =>
      simp only [Except.error.injEq] at h
      subst h
      exact check_range_error_form rd hwf key e' he
    case _ he => simp at h

/-- C8 (counterexample): a concrete failed lookup and a concrete failed
overlapping insert raise errors of the *same* kind (`RangDictKeyException`),
so a caller cannot distinguish "nothing scheduled here" from "cannot
schedule here" by the kind of the error alone. -/
theorem rangedict_error_kind_counterexample :
    RangeDict.getitem (α := Nat) ⟨[(20, 30)], [(30, 20)], [((20, 30), 1)]⟩ 5
      = .error (.rangDictKeyException "Key not found") ∧
    RangeDict.setitem (α := Nat) ⟨[(20, 30)], [(30, 20)], [((20, 30), 1)]⟩ (25, 40) 2
      = .error (.rangDictKeyException
          "Range is not unique (start of new block is within the previous block).") ∧
    PyError.kind (.rangDictKeyException "Key not found")
      = PyError.kind (.rangDictKeyException
          "Range is not unique (start of new block is within the previous block).") :=
  ⟨rfl, rfl, rfl⟩

/-- Witness for the amended C8 at a concrete store. -/
theorem rangedict_error_messages_witness :
    ((RangeDict.mk [(20, 30)] [(30, 20)] [((20, 30), 1)] : RangeDict Nat).getitem 5
        = .error (.rangDictKeyException "Key not found") →
      (.rangDictKeyException "Key not found" : PyError)
        = .rangDictKeyException "Key not found") ∧
    (∃ m, (.rangDictKeyException
          "Range is not unique (start of new block is within the previous block)." : PyError)
        = .rangDictKeyException m ∧ m ≠ "Key not found") :=
  ⟨fun h => (rangedict_error_messages (α := Nat) ⟨[(20, 30)], [(30, 20)], [((20, 30), 1)]⟩
      (by decide)).1 5 _ h,
   (rangedict_error_messages (α := Nat) ⟨[(20, 30)], [(30, 20)], [((20, 30), 1)]⟩
      (by decide)).2 (25, 40) 2 _ rfl⟩

theorem mapM_isSome {β γ : Type} (f : β → Option γ) (l : List β)
    (h : ∀ x ∈ l, (f x).isSome) : (l.mapM f).isSome := by
  induction l with
  | nil => rfl
  | cons x xs ih =>
    rw [List.mapM_cons]
    obtain ⟨y, hy⟩ := Option.isSome_iff_exists.mp (h x (List.mem_cons_self x xs))
    obtain ⟨ys, hys⟩ := Option.isSome_iff_exists.mp
      (ih (fun z hz => h z (List.mem_cons_of_mem x hz)))
    rw [hy, hys]
    rfl

/-- C7 (amended): what `get_range` actually returns on a well-formed store.
If no stored interval contains the point `start`, the result is `[]` — even
when later intervals intersect `[start, stop)`.  If `start` lies in the
`i`-th interval, the result is the (successful) lookup of every interval
from index `i` up to and including the one containing `stop` (to the end of
the table when no interval contains `stop`), in table order. -/
theorem get_range_behavior {α : Type} (rd : RangeDict α) (hwf : rd.WF) (s e : Int) :
    ((∀ p ∈ rd.FLUT, ¬(p.1 ≤ s ∧ s < p.2)) → rd.get_range s (some e) = some []) ∧
    (∀ (i : Nat) (p0 : Int × Int), rd.FLUT[i]? = some p0 → p0.1 ≤ s → s < p0.2 →
      ((∀ p ∈ rd.FLUT, ¬(p.1 ≤ e ∧ e < p.2)) →
          rd.get_range s (some e)
            = (rd.FLUT.drop i).mapM (fun k => storeLookup rd.store k) ∧
          (rd.get_range s (some e)).isSome) ∧
      (∀ (j : Nat) (q0 : Int × Int), rd.FLUT[j]? = some q0 → q0.1 ≤ e → e < q0.2 →
          rd.get_range s (some e)
            = ((rd.FLUT.take (j + 1)).drop i).mapM (fun k => storeLookup rd.store k) ∧
          (rd.get_range s (some e)).isSome)) := by
  have hall : ∀ k ∈ rd.FLUT, (storeLookup rd.store k).isSome :=
    fun k hk => storeLookup_isSome_of_mem rd.store rd.FLUT hwf.2.2.2 k hk
  constructor
  · intro hno
    have hbk : _binary_key_search rd.FLUT s = none := by
      cases hbk : _binary_key_search rd.FLUT s with
      | none => rfl
      | some i =>
        exfalso
        obtain ⟨p, hp, hc⟩ := bks_sound rd.FLUT s i hbk
        have hmem : p ∈ rd.FLUT := by
          obtain ⟨hl, he⟩ := List.getElem?_eq_some.mp hp
          exact he ▸ List.getElem_mem hl
        exact hno p hmem hc
    unfold RangeDict.get_range
    rw [hbk]
  · intro i p0 hp0 h1 h2
    have hbs : _binary_key_search rd.FLUT s = some i :=
      bks_eq_of_contains rd.FLUT s hwf.1 hwf.2.1 i p0 hp0 ⟨h1, h2⟩
    constructor
    · intro hno
      have hbe : _binary_key_search rd.FLUT e = none := by
        cases hbe : _binary_key_search rd.FLUT e with
        | none => rfl
        | some j =>
          exfalso
          obtain ⟨p, hp, hc⟩ := bks_sound rd.FLUT e j hbe
          have hmem : p ∈ rd.FLUT := by
            obtain ⟨hl, he⟩ := List.getElem?_eq_some.mp hp
            exact he ▸ List.getElem_mem hl
          exact hno p hmem hc
      have heq : rd.get_range s (some e)
          = (rd.FLUT.drop i).mapM (fun k => storeLookup rd.store k) := by
        unfold RangeDict.get_range
        rw [hbs]
        dsimp only
        rw [hbe]
      refine ⟨heq, ?_⟩
      rw [heq]
      exact mapM_isSome _ _ (fun k hk => hall k (List.mem_of_mem_drop hk))
    · intro j q0 hq0 g1 g2
      have hbe : _binary_key_search rd.FLUT e = some j :=
        bks_eq_of_contains rd.FLUT e hwf.1 hwf.2.1 j q0 hq0 ⟨g1, g2⟩
      have heq : rd.get_range s (some e)
          = ((rd.FLUT.take (j + 1)).drop i).mapM (fun k => storeLookup rd.store k) := by
        unfold RangeDict.get_range
        rw [hbs]
        dsimp only
        rw [hbe]
      refine ⟨heq, ?_⟩
      rw [heq]
      exact mapM_isSome _ _
        (fun k hk => hall k (List.mem_of_mem_take (List.mem_of_mem_drop hk)))

/-- C7 (counterexample): on the well-formed store holding one value on the
interval [5, 10), the query `get_range 3 8` returns `[]` although [5, 10)
intersects [3, 8) — the `RangDictKeyException` raised for the uncovered
start point 3 is caught and turned into an empty result, so intersecting
later intervals are not returned. -/
theorem get_range_miss_counterexample :
    (RangeDict.mk [(5, 10)] [(10, 5)] [((5, 10), 1)] : RangeDict Nat).WF ∧
    (RangeDict.mk [(5, 10)] [(10, 5)] [((5, 10), 1)] : RangeDict Nat).get_range 3 (some 8)
      = some [] ∧
    ((3 : Int) < 8 ∧ (5 : Int) < 8 ∧ (3 : Int) < 10) := by decide

def c7rd : RangeDict Nat :=
  ⟨[(0, 5), (7, 9)], [(5, 0), (9, 7)], [((0, 5), 1), ((7, 9), 2)]⟩

/-- Witness for the amended C7 at a concrete two-interval store:
`get_range 2 8` starts in interval 0 and ends in interval 1, returning the
lookups of both intervals. -/
theorem get_range_behavior_witness :
    c7rd.get_range 2 (some 8)
      = ((c7rd.FLUT.take 2).drop 0).mapM (fun k => storeLookup c7rd.store k) ∧
    (c7rd.get_range 2 (some 8)).isSome :=
  ((get_range_behavior c7rd (by decide) 2 8).2 0 (0, 5) rfl (by decide) (by decide)).2
    1 (7, 9) rfl (by decide) (by decide)
